import Mathlib

/-!
# WiredWolf rules engine — shallow embedding and verification

A shallow embedding of the WiredWolf model layer
(`src/wiredwolf/model/player.py`, `src/wiredwolf/model/game.py`,
`src/wiredwolf/model/game_modifiers.py`) together with theorems settling
the specification claims about it.

Conventions of the embedding:
* `Player` objects are Python objects held by reference; the `Game` state
  stores the roster as a list and every other reference to a player (vote
  maps, the pending accusation, the protected-player slot) is an index into
  that list, standing for the object reference.
* Python `dict`s keyed by `Player` use `Player.__eq__` for membership and
  lookup; that equality is embedded as `pyPlayerEq` below, and dict
  operations on the vote maps compare the *current* records of the
  referenced players, exactly as the live objects would compare.
* A Python method that can raise is embedded to return the (possibly
  partially mutated) state paired with `Option String`: `some msg` is an
  escaped exception, and mutations performed before the raise persist,
  as they do on live Python objects.
-/

namespace WiredWolf

/-- `Role` enum of `player.py`. -/
inductive Role where
  | WEREWOLF
  | VILLAGER
  | ESCORT
  | CLAIRVOYANT
  | MEDIUM
  deriving DecidableEq, Repr, Fintype

/-- `Role.is_evil` (player.py): only the werewolf is evil. -/
def Role.is_evil (r : Role) : Bool := r == Role.WEREWOLF

/-- `Status` enum of `player.py`. -/
inductive Status where
  | ALIVE
  | PROTECTED
  | DEAD
  deriving DecidableEq, Repr

/-- A `Player` object's fields: `_id`, `_role` (immutable), `_status` (mutable). -/
structure Player where
  id : String
  role : Role
  status : Status
  deriving DecidableEq, Repr

/-- `Player.is_alive` (player.py): status different from DEAD. -/
def Player.is_alive (p : Player) : Bool := p.status != Status.DEAD

/-- `Player.is_evil` (player.py): delegates to the role. -/
def Player.is_evil (p : Player) : Bool := p.role.is_evil

/-- `Player.__eq__` (player.py lines 53-56): compares `_id`, `_role` and
`_status`; anything that is not a `Player` compares unequal and is out of
scope of this embedding. -/
def pyPlayerEq (a b : Player) : Bool :=
  a.id == b.id && a.role == b.role && a.status == b.status

/-- `Player.__hash__` (player.py lines 58-59) is `hash((id, role, status))`;
we embed the tuple that is hashed, which determines the hash value. -/
def playerHashKey (p : Player) : String × Role × Status :=
  (p.id, p.role, p.status)

/-- `GamePhase` enum of `game.py`. -/
inductive GamePhase where
  | DAY_DISCUSSION
  | DAY_ACCUSING
  | DAY_BALLOT
  | NIGHT
  | VILLAGERS_VICTORY
  | WEREWOLVES_VICTORY
  deriving DecidableEq, Repr

/-- The mutable state of a `Game` object (game.py `__init__`).
Player references are indices into `players`. -/
structure Game where
  players : List Player
  phase : GamePhase
  accusingVotes : List (Nat × Nat)
  currentAccusation : Option Nat
  protectedPlayer : Option Nat
  wolvesVotes : List (Nat × Nat)
  ballotVotes : List (Nat × Bool)
  deriving DecidableEq, Repr

/-- `Game.__init__`: fresh state for a roster. -/
def Game.init (players : List Player) : Game :=
  { players := players
    phase := GamePhase.DAY_DISCUSSION
    accusingVotes := []
    currentAccusation := none
    protectedPlayer := none
    wolvesVotes := []
    ballotVotes := [] }

/-- Python `==` between the player objects referenced by two indices
(out-of-range indices never arise from the source, which only stores real
references; equal dangling indices are treated as the same reference). -/
def Game.refEq (g : Game) (i j : Nat) : Bool :=
  match g.players[i]?, g.players[j]? with
  | some a, some b => pyPlayerEq a b
  | none, none => i == j
  | _, _ => false

/-- Python `==` between a referenced player and an `Optional[Player]`
(`player == self._current_accusation`: comparing with `None` is `False`). -/
def Game.refEqOpt (g : Game) (i : Nat) (o : Option Nat) : Bool :=
  match o with
  | some j => g.refEq i j
  | none => false

/-- `key in dict` for a vote map keyed by player references. -/
def Game.keyMem (g : Game) (m : List (Nat × α)) (i : Nat) : Bool :=
  m.any (fun e => g.refEq e.1 i)

/-- `del dict[key]` minus the raise: drops the entries whose key compares
equal to the given reference (a real dict holds at most one). -/
def Game.delKey (g : Game) (m : List (Nat × α)) (i : Nat) : List (Nat × α) :=
  m.filter (fun e => !(g.refEq e.1 i))

/-- Overwrite a player's status in the roster (`player.status = ...` on the
referenced object). -/
def Game.setStatus (g : Game) (i : Nat) (st : Status) : Game :=
  match g.players[i]? with
  | some p => { g with players := g.players.set i { p with status := st } }
  | none => g

/-- `Game.__get_player_from_id`: first roster member with the given id,
as a reference (index). -/
def Game.getPlayerFromId (g : Game) (pid : String) : Option Nat :=
  g.players.findIdx? (fun p => p.id == pid)

/-- The player object behind an id, if the id resolves. -/
def Game.resolve (g : Game) (pid : String) : Option Player :=
  (g.getPlayerFromId pid).bind (fun i => g.players[i]?)

/-- `Game.__check_victory_conditions` (game.py lines 346-367): outside the
two victory phases, werewolves still ALIVE and villagers still ALIVE or
PROTECTED are collected; no werewolf left sets VILLAGERS_VICTORY, else no
villager left sets WEREWOLVES_VICTORY. -/
def Game.checkVictoryConditions (g : Game) : Game :=
  if g.phase = GamePhase.VILLAGERS_VICTORY ∨ g.phase = GamePhase.WEREWOLVES_VICTORY then
    g
  else
    let werewolves := g.players.filter
      (fun p => p.role == Role.WEREWOLF && p.status == Status.ALIVE)
    let villagers := g.players.filter
      (fun p => p.role != Role.WEREWOLF &&
        (p.status == Status.ALIVE || p.status == Status.PROTECTED))
    if werewolves.isEmpty then
      { g with phase := GamePhase.VILLAGERS_VICTORY }
    else if villagers.isEmpty then
      { g with phase := GamePhase.WEREWOLVES_VICTORY }
    else
      g

/-- Number of votes a target reference receives in a list of vote targets:
`Counter` groups the referenced `Player` objects by `Player.__eq__`. -/
def Game.countFor (g : Game) (ts : List Nat) (t : Nat) : Nat :=
  ts.countP (fun u => g.refEq u t)

/-- The distinct keys of `Counter(ts)` in insertion order: first occurrences
of each `Player.__eq__`-class of targets. -/
def Game.firstOccs (g : Game) (ts : List Nat) : List Nat :=
  ts.foldl (fun acc t => if acc.any (fun u => g.refEq u t) then acc else acc ++ [t]) []

/-- `max(vote_counts.values())` for a nonempty vote map. -/
def Game.maxCount (g : Game) (ts : List Nat) : Nat :=
  (ts.map (g.countFor ts)).foldl max 0

/-- The plurality selection of the DAY_ACCUSING branch of
`Game.advance_phase` (game.py lines 64-85): the Counter keys with maximal
count, kept in Counter order. -/
def Game.maxVoted (g : Game) (ts : List Nat) : List Nat :=
  (g.firstOccs ts).filter (fun t => g.countFor ts t == g.maxCount ts)

/-- The accused candidate the DAY_ACCUSING branch settles on: the single
strict plurality leader, if any (`len(accused_players) == 1`). -/
def Game.pluralityWinner (g : Game) (votes : List (Nat × Nat)) : Option Nat :=
  let ts := votes.map (·.2)
  if ts.isEmpty then none
  else
    let winners := g.maxVoted ts
    if winners.length == 1 then winners.head? else none

/-- The victim selection of the NIGHT branch of `Game.advance_phase`
(game.py lines 99-112), including its redundant `max_votes > 0` guard. -/
def Game.nightVictim (g : Game) (votes : List (Nat × Nat)) : Option Nat :=
  let ts := votes.map (·.2)
  if ts.isEmpty then none
  else if g.maxCount ts > 0 then
    let victims := g.maxVoted ts
    if victims.length == 1 then victims.head? else none
  else none

/-- `Game.__setup_new_day` (game.py lines 121-135): empty the three vote
maps, return a tracked protected player to ALIVE and clear the slot. -/
def Game.setupNewDay (g : Game) : Game :=
  let g := { g with accusingVotes := [], wolvesVotes := [], ballotVotes := [] }
  match g.protectedPlayer with
  | some j => { g.setStatus j Status.ALIVE with protectedPlayer := none }
  | none => g

/-- `Game.advance_phase` (game.py lines 47-119). The zero-accusation-votes
branch returns early, skipping the victory check, exactly as the source
does. -/
def Game.advancePhase (g : Game) : Game :=
  match g.phase with
  | GamePhase.DAY_DISCUSSION =>
      Game.checkVictoryConditions { g with phase := GamePhase.DAY_ACCUSING }
  | GamePhase.DAY_ACCUSING =>
      let ts := g.accusingVotes.map (·.2)
      if ts.isEmpty then
        -- no votes cast: skip to night and return without the victory check
        { g with phase := GamePhase.NIGHT }
      else
        let accusedPlayers := g.maxVoted ts
        if accusedPlayers.length == 1 then
          Game.checkVictoryConditions
            { g with phase := GamePhase.DAY_BALLOT
                     currentAccusation := accusedPlayers.head? }
        else
          Game.checkVictoryConditions { g with phase := GamePhase.NIGHT }
  | GamePhase.DAY_BALLOT =>
      let g1 : Game :=
        match g.currentAccusation with
        | some acc =>
            let votingCount := g.ballotVotes.length
            let confirmVotes := (g.ballotVotes.filter (fun e => e.2)).length
            -- `confirm_ballot_votes >= voting_count / 2` with exact arithmetic
            let g2 : Game :=
              if votingCount > 0 ∧ 2 * confirmVotes ≥ votingCount then
                g.setStatus acc Status.DEAD
              else g
            { g2 with currentAccusation := none }
        | none => g
      Game.checkVictoryConditions { g1 with phase := GamePhase.NIGHT }
  | GamePhase.NIGHT =>
      let g1 : Game :=
        match g.nightVictim g.wolvesVotes with
        | some victim =>
            match g.players[victim]? with
            | some p => if p.status ≠ Status.PROTECTED then g.setStatus victim Status.DEAD else g
            | none => g
        | none => g
      Game.checkVictoryConditions { g1.setupNewDay with phase := GamePhase.DAY_DISCUSSION }
  | GamePhase.VILLAGERS_VICTORY => Game.checkVictoryConditions g
  | GamePhase.WEREWOLVES_VICTORY => Game.checkVictoryConditions g

/-- The common tail of `Game.kill_player` on a living roster member:
`player.status = Status.DEAD` followed by `__check_victory_conditions()`. -/
def Game.killFinish (g : Game) (i : Nat) : Game × Option String :=
  (Game.checkVictoryConditions (g.setStatus i Status.DEAD), none)

/-- The DAY_ACCUSING purge loop of `Game.kill_player` (game.py lines
247-249): for each roster member in order, if their recorded accusation
vote targets the killed player, delete their entry. -/
def Game.accusingPurge (g : Game) (m : List (Nat × Nat)) (i : Nat) : List (Nat × Nat) :=
  (List.range g.players.length).foldl
    (fun m v =>
      match m.find? (fun e => g.refEq e.1 v) with
      | some e => if g.refEq e.2 i then g.delKey m v else m
      | none => m)
    m

/-- `Game.kill_player` (game.py lines 225-266). Unknown ids and dead
players fall through silently. In DAY_BALLOT the source runs
`del self._ballot_votes[player]` unconditionally on a non-accusee, which
raises `KeyError` when the player has no recorded ballot vote; in NIGHT the
source deletes from `self._wolves_votes` while iterating it, which raises
`RuntimeError` right after the first deletion. Both escapes are embedded
as `some` error results carrying the partially mutated state. -/
def Game.killPlayer (g : Game) (pid : String) : Game × Option String :=
  match g.getPlayerFromId pid with
  | none => (g, none)
  | some i =>
    match g.players[i]? with
    | none => (g, none)
    | some p =>
      if ¬ p.is_alive then (g, none)
      else
        match g.phase with
        | GamePhase.DAY_DISCUSSION => (g.setStatus i Status.DEAD).killFinish i
        | GamePhase.DAY_ACCUSING =>
            let g1 : Game :=
              if g.keyMem g.accusingVotes i then
                { g with accusingVotes := g.delKey g.accusingVotes i }
              else g
            let g2 : Game := { g1 with accusingVotes := g1.accusingPurge g1.accusingVotes i }
            g2.killFinish i
        | GamePhase.DAY_BALLOT =>
            if g.refEqOpt i g.currentAccusation then
              Game.killFinish
                { g with currentAccusation := none, phase := GamePhase.NIGHT } i
            else if g.keyMem g.ballotVotes i then
              Game.killFinish { g with ballotVotes := g.delKey g.ballotVotes i } i
            else
              (g, some "KeyError: player has no ballot vote")
        | GamePhase.NIGHT =>
            let g1 : Game :=
              if p.role == Role.WEREWOLF && g.keyMem g.wolvesVotes i then
                { g with wolvesVotes := g.delKey g.wolvesVotes i }
              else g
            match g1.wolvesVotes.find? (fun e => g1.refEq e.2 i) with
            | some e =>
                ({ g1 with wolvesVotes := g1.delKey g1.wolvesVotes e.1 },
                 some "RuntimeError: dictionary changed size during iteration")
            | none =>
                let g2 : Game :=
                  if g1.refEqOpt i g1.protectedPlayer then
                    { g1 with protectedPlayer := none }
                  else g1
                g2.killFinish i
        | _ => g.killFinish i

/-- `Game.accuse_player` (game.py lines 174-199). -/
def Game.accusePlayer (g : Game) (voterId targetId : String) : Game × Option String :=
  if g.phase ≠ GamePhase.DAY_ACCUSING then
    (g, some "Accusations can only be made during the DAY_ACCUSING phase.")
  else
    match g.getPlayerFromId voterId, g.getPlayerFromId targetId with
    | some v, some t =>
        match g.players[v]?, g.players[t]? with
        | some pv, some pt =>
            if ¬ g.keyMem g.accusingVotes v ∧ pv.is_alive ∧ pt.is_alive then
              ({ g with accusingVotes := g.accusingVotes ++ [(v, t)] }, none)
            else
              (g, some "Voter is dead or target cannot be accused.")
        | _, _ => (g, none)
    | _, _ => (g, some "Voter and/or target id does not exist.")

/-- `Game.ballot_vote` (game.py lines 201-223). -/
def Game.ballotVote (g : Game) (voterId : String) (vote : Bool) : Game × Option String :=
  if g.phase ≠ GamePhase.DAY_BALLOT then
    (g, some "Ballots can only be confirmed during the DAY_BALLOT phase.")
  else
    match g.getPlayerFromId voterId with
    | some v =>
        match g.players[v]? with
        | some pv =>
            if ¬ g.keyMem g.ballotVotes v ∧ pv.is_alive then
              ({ g with ballotVotes := g.ballotVotes ++ [(v, vote)] }, none)
            else
              (g, some "Player does not exist or is not alive.")
        | none => (g, none)
    | none => (g, some "Player does not exist or is not alive.")

/-- `Game.__werewolf_action` (game.py lines 270-288). The whole body is
guarded by `if werewolf not in self._wolves_votes:` with no else branch: a
werewolf that already voted falls through silently, contradicting the
docstring that promises a raise. -/
def Game.werewolfAction (g : Game) (targetId : String) (w : Nat) : Game × Option String :=
  if g.keyMem g.wolvesVotes w then
    (g, none)
  else
    match g.getPlayerFromId targetId with
    | some t =>
        match g.players[t]? with
        | some pt =>
            if pt.is_alive && pt.role != Role.WEREWOLF then
              ({ g with wolvesVotes := g.wolvesVotes ++ [(w, t)] }, none)
            else
              (g, some "Player cannot be killed or does not exist.")
        | none => (g, none)
    | none => (g, some "Player cannot be killed or does not exist.")

/-- `Game.__escort_action` (game.py lines 290-306). -/
def Game.escortAction (g : Game) (targetId : String) : Game × Option String :=
  match g.getPlayerFromId targetId with
  | some t =>
      match g.players[t]? with
      | some pt =>
          if pt.status == Status.ALIVE && g.protectedPlayer.isNone then
            ({ g.setStatus t Status.PROTECTED with protectedPlayer := some t }, none)
          else
            (g, some "Player cannot be protected or does not exist.")
      | none => (g, none)
  | none => (g, some "Player cannot be protected or does not exist.")

/-- `Game.__clairvoyant_action` (game.py lines 308-325): reveals whether a
living target is a werewolf. -/
def Game.clairvoyantAction (g : Game) (targetId : String) : Option Bool × Option String :=
  match g.resolve targetId with
  | some pt =>
      if pt.is_alive then (some (pt.role == Role.WEREWOLF), none)
      else (none, some "Player cannot be checked or does not exist.")
  | none => (none, some "Player cannot be checked or does not exist.")

/-- `Game.__medium_action` (game.py lines 327-344): reveals whether a dead
target was a werewolf. -/
def Game.mediumAction (g : Game) (targetId : String) : Option Bool × Option String :=
  match g.resolve targetId with
  | some pt =>
      if pt.status == Status.DEAD then (some (pt.role == Role.WEREWOLF), none)
      else (none, some "Player cannot be checked or does not exist.")
  | none => (none, some "Player cannot be checked or does not exist.")

/-- `Game.perform_night_action` (game.py lines 137-172): result is
(state, returned value, escaped exception). The `match actor.role` has no
case for VILLAGER, so a villager actor falls into `case _` and raises
`Unknown role`. -/
def Game.performNightAction (g : Game) (actorId targetId : String) :
    Game × Option Bool × Option String :=
  if g.phase ≠ GamePhase.NIGHT then
    (g, none, some "Night actions can only be performed during the NIGHT phase.")
  else
    match g.getPlayerFromId actorId with
    | none => (g, none, some "Player does not exist or is not alive.")
    | some i =>
        match g.players[i]? with
        | none => (g, none, some "Player does not exist or is not alive.")
        | some actor =>
            if ¬ actor.is_alive then
              (g, none, some "Player does not exist or is not alive.")
            else
              match actor.role with
              | Role.WEREWOLF =>
                  let r := g.werewolfAction targetId i
                  (r.1, none, r.2)
              | Role.ESCORT =>
                  let r := g.escortAction targetId
                  (r.1, none, r.2)
              | Role.CLAIRVOYANT =>
                  let r := g.clairvoyantAction targetId
                  (g, r.1, r.2)
              | Role.MEDIUM =>
                  let r := g.mediumAction targetId
                  (g, r.1, r.2)
              | Role.VILLAGER =>
                  (g, none, some "Unknown role")

/-- One externally driven mutation of a match: the two operations the
absorbing-phase property quantifies over. -/
inductive GameOp where
  | advance
  | kill (pid : String)
  deriving DecidableEq, Repr

/-- Apply one operation; an exception escaping `kill_player` leaves the
caller with the partially mutated game object. -/
def Game.applyOp (g : Game) : GameOp → Game
  | GameOp.advance => g.advancePhase
  | GameOp.kill pid => (g.killPlayer pid).1

/-- Apply a sequence of operations left to right. -/
def Game.run (g : Game) (ops : List GameOp) : Game :=
  ops.foldl Game.applyOp g

/-! ## game_modifiers.py: the composable rule engine -/

/-- The three vote maps owned by `MinimalGameInfo.__init__`
(game_modifiers.py lines 90-93); keys are `Player` values compared with
`Player.__eq__`. -/
structure MinimalGameInfo where
  accusationVotes : List (Player × Player)
  ballotVotes : List (Player × Bool)
  werewolvesVotes : List (Player × Player)
  deriving DecidableEq, Repr

/-- Fresh `MinimalGameInfo`. -/
def MinimalGameInfo.init : MinimalGameInfo := ⟨[], [], []⟩

/-- `key in dict` for maps keyed by `Player` values. -/
def keyMemP (m : List (Player × α)) (k : Player) : Bool :=
  m.any (fun e => pyPlayerEq e.1 k)

/-- `MinimalGameInfo.handle_accusation_vote` (game_modifiers.py lines
107-114). -/
def MinimalGameInfo.handleAccusationVote (info : MinimalGameInfo)
    (accuser accused : Player) : MinimalGameInfo × Option String :=
  if ¬ accuser.is_alive then (info, some "Cannot accuse as dead player.")
  else if ¬ accused.is_alive then (info, some "Cannot accuse dead player.")
  else if keyMemP info.accusationVotes accuser then (info, some "has already voted")
  else ({ info with accusationVotes := info.accusationVotes ++ [(accuser, accused)] }, none)

/-- `MinimalGameInfo.handle_ballot_vote` (game_modifiers.py lines 116-121). -/
def MinimalGameInfo.handleBallotVote (info : MinimalGameInfo)
    (voter : Player) (vote : Bool) : MinimalGameInfo × Option String :=
  if ¬ voter.is_alive then (info, some "Cannot vote as dead player.")
  else if keyMemP info.ballotVotes voter then (info, some "has already voted")
  else ({ info with ballotVotes := info.ballotVotes ++ [(voter, vote)] }, none)

/-- `MinimalGameInfo._handle_night_actions` (game_modifiers.py lines
123-134): only a werewolf actor does anything; every other actor, the
villager included, falls through to `return None` with no mutation. -/
def MinimalGameInfo.handleNightActionsHook (info : MinimalGameInfo)
    (actor target : Player) : MinimalGameInfo × Option Bool × Option String :=
  if actor.role == Role.WEREWOLF then
    if ¬ actor.is_alive then
      (info, none, some "cannot perform action as dead player")
    else if keyMemP info.werewolvesVotes actor then
      (info, none, some "has already voted")
    else if target.role == Role.WEREWOLF then
      (info, none, some "Werewolves cannot vote for other werewolves.")
    else if ¬ target.is_alive then
      (info, none, some "Cannot vote for dead player.")
    else
      ({ info with werewolvesVotes := info.werewolvesVotes ++ [(actor, target)] }, none, none)
  else
    (info, none, none)

/-- `MinimalGameInfo.get_handled_roles` (game_modifiers.py lines 150-151). -/
def MinimalGameInfo.getHandledRoles : List Role :=
  [Role.VILLAGER, Role.WEREWOLF]

/-- The final `AbstractGameInfo.handle_night_actions` dispatcher
(game_modifiers.py lines 48-62) instantiated at the baseline module:
reject a role outside `get_handled_roles()`, then run the hook. -/
def MinimalGameInfo.handleNightActions (info : MinimalGameInfo)
    (actor target : Player) : MinimalGameInfo × Option Bool × Option String :=
  if ¬ MinimalGameInfo.getHandledRoles.contains actor.role then
    (info, none, some "is unhandled")
  else
    info.handleNightActionsHook actor target

/-- `MinimalGameInfo.end_game_conditions` (game_modifiers.py lines
141-148). -/
def MinimalGameInfo.endGameConditions (players : List Player) : Option GamePhase :=
  let werewolvesAlive := players.any (fun p => p.is_evil && p.is_alive)
  let villagersAlive := players.any (fun p => !p.is_evil && p.is_alive)
  if ¬ werewolvesAlive then some GamePhase.VILLAGERS_VICTORY
  else if ¬ villagersAlive then some GamePhase.WEREWOLVES_VICTORY
  else none

/-- A built rule configuration: `MinimalGameInfo` wrapped by zero or more
of the three `GameInfoDecorator` subclasses (game_modifiers.py lines
154-267), each carrying its own per-round state. -/
inductive GameInfo where
  | minimal (state : MinimalGameInfo)
  | clairvoyant (acted : Bool) (wrapped : GameInfo)
  | escort (acted : Bool) (protectedPlayer : Option Player) (wrapped : GameInfo)
  | medium (acted : Bool) (wrapped : GameInfo)
  deriving DecidableEq, Repr

/-- `get_handled_roles` through the decorator chain: each decorator appends
its one role to the wrapped module's list. -/
def GameInfo.getHandledRoles : GameInfo → List Role
  | GameInfo.minimal _ => MinimalGameInfo.getHandledRoles
  | GameInfo.clairvoyant _ w => w.getHandledRoles ++ [Role.CLAIRVOYANT]
  | GameInfo.escort _ _ w => w.getHandledRoles ++ [Role.ESCORT]
  | GameInfo.medium _ w => w.getHandledRoles ++ [Role.MEDIUM]

/-- `BasicGameInfoFactory.build` (game_modifiers.py lines 270-277):
baseline, then clairvoyant, escort and medium decorators in that fixed
order. -/
def BasicGameInfoFactory.build : GameInfo :=
  GameInfo.medium false
    (GameInfo.escort false none
      (GameInfo.clairvoyant false
        (GameInfo.minimal MinimalGameInfo.init)))

/-- A Python reference to a built configuration object. No class in
game_modifiers.py overrides `__eq__`, so `==` between two configuration
objects is `object.__eq__`: reference identity, embedded as a distinct
object id per construction. -/
structure PyGameInfoRef where
  oid : Nat
  info : GameInfo
  deriving DecidableEq, Repr

/-- Python `==` on configuration objects: identity of the references. -/
def pyGameInfoEq (a b : PyGameInfoRef) : Bool := a.oid == b.oid

/-! ## Concrete fixtures used by the evaluation theorems -/

/-- A four-member roster: one werewolf, three villagers, all alive. -/
def sampleRoster : List Player :=
  [⟨"Alice", Role.VILLAGER, Status.ALIVE⟩,
   ⟨"Bob", Role.WEREWOLF, Status.ALIVE⟩,
   ⟨"Charlie", Role.VILLAGER, Status.ALIVE⟩,
   ⟨"Diana", Role.VILLAGER, Status.ALIVE⟩]

/-- A ballot-phase state over `sampleRoster`: Alice (index 0) stands
accused, two ballots are in, one confirming (Charlie) and one rejecting
(Diana). -/
def ballotSplitGame : Game :=
  { Game.init sampleRoster with
    phase := GamePhase.DAY_BALLOT
    currentAccusation := some 0
    ballotVotes := [(2, true), (3, false)] }

/-- A ballot-phase state over `sampleRoster` with Alice accused and no
ballots cast at all. -/
def ballotEmptyGame : Game :=
  { Game.init sampleRoster with
    phase := GamePhase.DAY_BALLOT
    currentAccusation := some 0 }

/-- An accusing-phase state in which Alice (index 0) has already voted
against Charlie (index 2). -/
def accuseDupGame : Game :=
  { Game.init sampleRoster with
    phase := GamePhase.DAY_ACCUSING
    accusingVotes := [(0, 2)] }

/-- A ballot-phase state in which Charlie (index 2) has already cast a
ballot, with Alice accused. -/
def ballotDupGame : Game :=
  { Game.init sampleRoster with
    phase := GamePhase.DAY_BALLOT
    currentAccusation := some 0
    ballotVotes := [(2, true)] }

/-- A night state in which the werewolf Bob (index 1) has already voted to
kill Alice (index 0). -/
def wolfDupGame : Game :=
  { Game.init sampleRoster with
    phase := GamePhase.NIGHT
    wolvesVotes := [(1, 0)] }

/-- A roster whose only werewolf is PROTECTED while a villager is ALIVE:
the werewolf is not dead, yet the orchestrator's victory check does not
count it as alive. -/
def protectedWolfGame : Game :=
  Game.init
    [⟨"Wanda", Role.WEREWOLF, Status.PROTECTED⟩,
     ⟨"Vera", Role.VILLAGER, Status.ALIVE⟩]

/-- The factory-built configuration, wrapped as one Python object. -/
def configAlpha : PyGameInfoRef :=
  ⟨0, BasicGameInfoFactory.build⟩

/-- An independently built configuration enabling the same three extension
modules, added in a different order, wrapped as a second Python object. -/
def configBeta : PyGameInfoRef :=
  ⟨1, GameInfo.escort false none
        (GameInfo.clairvoyant false
          (GameInfo.medium false
            (GameInfo.minimal MinimalGameInfo.init)))⟩

/-- A night state over `sampleRoster` with no actions recorded yet. -/
def villagerNightGame : Game :=
  { Game.init sampleRoster with phase := GamePhase.NIGHT }

/-- A finished match: villagers already declared winners over
`sampleRoster`. -/
def villagersWonGame : Game :=
  { Game.init sampleRoster with phase := GamePhase.VILLAGERS_VICTORY }

/-- A night state in which the werewolf Bob voted to kill Alice, but Alice
is PROTECTED and tracked in the protected-player slot. -/
def protectedNightGame : Game :=
  { Game.init
      [⟨"Alice", Role.VILLAGER, Status.PROTECTED⟩,
       ⟨"Bob", Role.WEREWOLF, Status.ALIVE⟩,
       ⟨"Charlie", Role.VILLAGER, Status.ALIVE⟩,
       ⟨"Diana", Role.VILLAGER, Status.ALIVE⟩] with
    phase := GamePhase.NIGHT
    wolvesVotes := [(1, 0)]
    protectedPlayer := some 0 }

/-- An accusing-phase state over `sampleRoster` with a 1-1 tie: Alice
votes Bob, Charlie votes Diana. -/
def accuseTieGame : Game :=
  { Game.init sampleRoster with
    phase := GamePhase.DAY_ACCUSING
    accusingVotes := [(0, 1), (2, 3)] }

/-- Reference form of the distinct-keys list of a `Counter` over plain
indices: first occurrences in insertion order. Used to restate the
embedded `Game.firstOccs` when roster records are pairwise distinct. -/
def firstOccsN (ts : List Nat) : List Nat :=
  ts.foldl (fun acc t => if t ∈ acc then acc else acc ++ [t]) []

/-! ## Claim theorems -/

/-- **C1.** The claim says the accused dies iff confirming ballots strictly
exceed half the ballots cast, so a 1-confirm/1-reject split must leave the
accused ALIVE. The code tests `confirm_ballot_votes >= voting_count / 2`
(game.py line 94), directly under a comment promising "more than half", so
with 2 ballots split 1/1 `advance_phase` kills the accused: status DEAD,
accusation cleared, phase night. The zero-ballot case does behave as
claimed (no execution). -/
theorem ballot_threshold_at_least_half_bug :
    ((ballotSplitGame.ballotVotes.length = 2 ∧
      (ballotSplitGame.ballotVotes.filter (fun e => e.2)).length = 1) ∧
     ballotSplitGame.advancePhase.players[0]? =
       some ⟨"Alice", Role.VILLAGER, Status.DEAD⟩ ∧
     ballotSplitGame.advancePhase.phase = GamePhase.NIGHT ∧
     ballotSplitGame.advancePhase.currentAccusation = none) ∧
    (ballotEmptyGame.advancePhase.players[0]? =
       some ⟨"Alice", Role.VILLAGER, Status.ALIVE⟩ ∧
     ballotEmptyGame.advancePhase.phase = GamePhase.NIGHT ∧
     ballotEmptyGame.advancePhase.currentAccusation = none) := by
  decide

/-- **C2.** The claim says `Player.__eq__`/`__hash__` are derived from
`id` alone. The code compares and hashes `(id, role, status)` (player.py
lines 53-59): two players sharing an id but differing in status or role
are unequal with different hash inputs, and mutating status moves a player
to a different equality class. -/
theorem player_equality_uses_role_and_status_bug :
    (Player.mk "Ada" Role.VILLAGER Status.ALIVE).id =
      (Player.mk "Ada" Role.VILLAGER Status.DEAD).id ∧
    pyPlayerEq (Player.mk "Ada" Role.VILLAGER Status.ALIVE)
      (Player.mk "Ada" Role.VILLAGER Status.DEAD) = false ∧
    pyPlayerEq (Player.mk "Ada" Role.VILLAGER Status.ALIVE)
      (Player.mk "Ada" Role.WEREWOLF Status.ALIVE) = false ∧
    playerHashKey (Player.mk "Ada" Role.VILLAGER Status.ALIVE) ≠
      playerHashKey (Player.mk "Ada" Role.VILLAGER Status.DEAD) ∧
    pyPlayerEq (Player.mk "Ada" Role.VILLAGER Status.ALIVE)
      (Player.mk "Ada" Role.VILLAGER Status.ALIVE) = true := by
  decide

/-- **C4.** Duplicate accusation and ballot votes are rejected with an
error and the first vote survives, as claimed; but the orchestrator's
evil-team night vote (game.py `__werewolf_action`) silently ignores a
second vote from the same living werewolf — no error, contradicting both
the claim and the method's own docstring — while the baseline rule
module's handler (game_modifiers.py `_handle_night_actions`) does raise.
The first recorded vote is never overwritten in any of the cases. -/
theorem werewolf_duplicate_vote_silent_bug :
    ((accuseDupGame.accusePlayer "Alice" "Diana").1 = accuseDupGame ∧
     (accuseDupGame.accusePlayer "Alice" "Diana").2.isSome = true) ∧
    ((ballotDupGame.ballotVote "Charlie" false).1 = ballotDupGame ∧
     (ballotDupGame.ballotVote "Charlie" false).2.isSome = true) ∧
    (wolfDupGame.performNightAction "Bob" "Charlie" = (wolfDupGame, none, none) ∧
     wolfDupGame.wolvesVotes = [(1, 0)] ∧
     (wolfDupGame.players[1]?.map Player.is_alive) = some true) ∧
    ((MinimalGameInfo.handleNightActions
        ⟨[], [], [(⟨"Bob", Role.WEREWOLF, Status.ALIVE⟩, ⟨"Alice", Role.VILLAGER, Status.ALIVE⟩)]⟩
        ⟨"Bob", Role.WEREWOLF, Status.ALIVE⟩ ⟨"Charlie", Role.VILLAGER, Status.ALIVE⟩).2.2.isSome = true ∧
     (MinimalGameInfo.handleNightActions
        ⟨[], [], [(⟨"Bob", Role.WEREWOLF, Status.ALIVE⟩, ⟨"Alice", Role.VILLAGER, Status.ALIVE⟩)]⟩
        ⟨"Bob", Role.WEREWOLF, Status.ALIVE⟩ ⟨"Charlie", Role.VILLAGER, Status.ALIVE⟩).1 =
       ⟨[], [], [(⟨"Bob", Role.WEREWOLF, Status.ALIVE⟩, ⟨"Alice", Role.VILLAGER, Status.ALIVE⟩)]⟩) := by
  decide

/-- **C7.** In a state reached from a fresh game by legal calls
(advance, Alice accuses Bob, advance to ballot), `kill_player` on Charlie
— a living roster member who is neither the accusee nor a ballot voter —
raises `KeyError` from the unconditional `del self._ballot_votes[player]`
(game.py line 255), leaving the state unmodified, where the claim promises
kill_player never raises. -/
theorem kill_player_ballot_keyerror_bug :
    ((Game.init sampleRoster).advancePhase.accusePlayer "Alice" "Bob").2 = none ∧
    (((Game.init sampleRoster).advancePhase.accusePlayer "Alice" "Bob").1.advancePhase.phase
      = GamePhase.DAY_BALLOT) ∧
    (((Game.init sampleRoster).advancePhase.accusePlayer "Alice" "Bob").1.advancePhase.resolve
      "Charlie" = some ⟨"Charlie", Role.VILLAGER, Status.ALIVE⟩) ∧
    ((((Game.init sampleRoster).advancePhase.accusePlayer "Alice" "Bob").1.advancePhase.killPlayer
      "Charlie").2.isSome = true) ∧
    ((((Game.init sampleRoster).advancePhase.accusePlayer "Alice" "Bob").1.advancePhase.killPlayer
      "Charlie").1 =
      ((Game.init sampleRoster).advancePhase.accusePlayer "Alice" "Bob").1.advancePhase) := by
  decide

/-- **C9.** No class of the rule-engine stack defines `__eq__`, so two
configurations built over the baseline from the same three extension
modules in different orders are distinct objects that compare unequal
under Python's identity-based default — even though their handled-role
sets coincide — contradicting the claim and the repository's own
`test_game_info_equals` test. -/
theorem config_equality_is_identity_bug :
    pyGameInfoEq configAlpha configBeta = false ∧
    pyGameInfoEq configAlpha configAlpha = true ∧
    (∀ r : Role, r ∈ configAlpha.info.getHandledRoles ↔
      r ∈ configBeta.info.getHandledRoles) ∧
    configAlpha.info ≠ configBeta.info := by
  decide

/-- **C3 counterexample.** The claim says the end-of-game check yields
good victory iff no evil player is alive, with PROTECTED counting as alive
on both teams. With the only werewolf PROTECTED and a villager ALIVE, the
orchestrator's check (game.py `__check_victory_conditions`) declares
VILLAGERS_VICTORY although the werewolf is alive-or-protected — and the
baseline module's `end_game_conditions` disagrees, returning no winner on
the same roster. -/
theorem victory_check_protected_wolf_cex :
    protectedWolfGame.checkVictoryConditions.phase = GamePhase.VILLAGERS_VICTORY ∧
    protectedWolfGame.players.any (fun p => p.is_evil && p.is_alive) = true ∧
    MinimalGameInfo.endGameConditions protectedWolfGame.players = none := by
  decide

/-- Bool-level reading of "no evil player is alive". -/
lemma any_evil_alive_false_iff (ps : List Player) :
    (ps.any fun p => p.is_evil && p.is_alive) = false ↔
      ∀ p ∈ ps, p.is_evil = true → p.is_alive = false := by
  rw [List.any_eq_false]
  constructor
  · intro h p hp he
    have hb := h p hp
    rw [Bool.not_eq_true, he] at hb
    simpa using hb
  · intro h p hp
    rw [Bool.not_eq_true]
    cases he : p.is_evil
    · simp
    · simpa using h p hp he

/-- Bool-level reading of "no good player is alive". -/
lemma any_good_alive_false_iff (ps : List Player) :
    (ps.any fun p => !p.is_evil && p.is_alive) = false ↔
      ∀ p ∈ ps, p.is_evil = false → p.is_alive = false := by
  rw [List.any_eq_false]
  constructor
  · intro h p hp he
    have hb := h p hp
    rw [Bool.not_eq_true, he] at hb
    simpa using hb
  · intro h p hp
    rw [Bool.not_eq_true]
    cases he : p.is_evil
    · simpa using h p hp he
    · simp [he]

/-- Bool-level reading of "some evil player is alive". -/
lemma any_evil_alive_true_iff (ps : List Player) :
    (ps.any fun p => p.is_evil && p.is_alive) = true ↔
      ∃ p ∈ ps, p.is_evil = true ∧ p.is_alive = true := by
  simp [List.any_eq_true, Bool.and_eq_true]

/-- Bool-level reading of "some good player is alive". -/
lemma any_good_alive_true_iff (ps : List Player) :
    (ps.any fun p => !p.is_evil && p.is_alive) = true ↔
      ∃ p ∈ ps, p.is_evil = false ∧ p.is_alive = true := by
  simp [List.any_eq_true, Bool.and_eq_true]

/-- `end_game_conditions` returns good victory exactly when every evil
player is dead (`is_alive`, so PROTECTED counts as alive). -/
lemma endGameConditions_VV_iff (ps : List Player) :
    MinimalGameInfo.endGameConditions ps = some GamePhase.VILLAGERS_VICTORY ↔
      ∀ p ∈ ps, p.is_evil = true → p.is_alive = false := by
  simp only [MinimalGameInfo.endGameConditions]
  cases h1 : ps.any (fun p => p.is_evil && p.is_alive)
  · simpa using (any_evil_alive_false_iff ps).mp h1
  · cases h2 : ps.any (fun p => !p.is_evil && p.is_alive)
    · constructor
      · intro h
        exact absurd h (by simp)
      · intro h
        rcases (any_evil_alive_true_iff ps).mp h1 with ⟨p, hp, he, ha⟩
        rw [h p hp he] at ha
        exact absurd ha (by simp)
    · constructor
      · intro h
        exact absurd h (by simp)
      · intro h
        rcases (any_evil_alive_true_iff ps).mp h1 with ⟨p, hp, he, ha⟩
        rw [h p hp he] at ha
        exact absurd ha (by simp)

/-- `end_game_conditions` returns evil victory exactly when some evil
player is alive and every good player is dead. -/
lemma endGameConditions_WV_iff (ps : List Player) :
    MinimalGameInfo.endGameConditions ps = some GamePhase.WEREWOLVES_VICTORY ↔
      (∃ p ∈ ps, p.is_evil = true ∧ p.is_alive = true) ∧
      ∀ p ∈ ps, p.is_evil = false → p.is_alive = false := by
  simp only [MinimalGameInfo.endGameConditions]
  cases h1 : ps.any (fun p => p.is_evil && p.is_alive)
  · constructor
    · intro h
      exact absurd h (by simp)
    · rintro ⟨⟨p, hp, he, ha⟩, -⟩
      have := (any_evil_alive_false_iff ps).mp h1 p hp he
      rw [this] at ha
      exact absurd ha (by simp)
  · cases h2 : ps.any (fun p => !p.is_evil && p.is_alive)
    · constructor
      · intro _
        exact ⟨(any_evil_alive_true_iff ps).mp h1, (any_good_alive_false_iff ps).mp h2⟩
      · intro _
        simp
    · constructor
      · intro h
        exact absurd h (by simp)
      · rintro ⟨-, h⟩
        rcases (any_good_alive_true_iff ps).mp h2 with ⟨p, hp, he, ha⟩
        rw [h p hp he] at ha
        exact absurd ha (by simp)

/-- `end_game_conditions` returns nothing exactly when both teams still
have a living member. -/
lemma endGameConditions_none_iff (ps : List Player) :
    MinimalGameInfo.endGameConditions ps = none ↔
      (∃ p ∈ ps, p.is_evil = true ∧ p.is_alive = true) ∧
      (∃ p ∈ ps, p.is_evil = false ∧ p.is_alive = true) := by
  simp only [MinimalGameInfo.endGameConditions]
  cases h1 : ps.any (fun p => p.is_evil && p.is_alive)
  · constructor
    · intro h
      exact absurd h (by simp)
    · rintro ⟨⟨p, hp, he, ha⟩, -⟩
      have := (any_evil_alive_false_iff ps).mp h1 p hp he
      rw [this] at ha
      exact absurd ha (by simp)
  · cases h2 : ps.any (fun p => !p.is_evil && p.is_alive)
    · constructor
      · intro h
        exact absurd h (by simp)
      · rintro ⟨-, ⟨p, hp, he, ha⟩⟩
        have := (any_good_alive_false_iff ps).mp h2 p hp he
        rw [this] at ha
        exact absurd ha (by simp)
    · constructor
      · intro _
        exact ⟨(any_evil_alive_true_iff ps).mp h1, (any_good_alive_true_iff ps).mp h2⟩
      · intro _
        simp

/-- Reduction of `__check_victory_conditions` outside terminal phases to a
case split on the two filters. -/
lemma checkVictory_reduce (g : Game)
    (hterm : ¬(g.phase = GamePhase.VILLAGERS_VICTORY ∨
      g.phase = GamePhase.WEREWOLVES_VICTORY)) :
    g.checkVictoryConditions =
      if g.players.filter
          (fun p => p.role == Role.WEREWOLF && p.status == Status.ALIVE) = [] then
        { g with phase := GamePhase.VILLAGERS_VICTORY }
      else if g.players.filter
          (fun p => p.role != Role.WEREWOLF &&
            (p.status == Status.ALIVE || p.status == Status.PROTECTED)) = [] then
        { g with phase := GamePhase.WEREWOLVES_VICTORY }
      else g := by
  simp only [Game.checkVictoryConditions, if_neg hterm, List.isEmpty_iff]

/-- The werewolf filter is empty exactly when no werewolf has status
ALIVE. -/
lemma wolvesFilter_nil_iff (g : Game) :
    g.players.filter
      (fun p => p.role == Role.WEREWOLF && p.status == Status.ALIVE) = [] ↔
    ∀ p ∈ g.players, p.role = Role.WEREWOLF → p.status ≠ Status.ALIVE := by
  rw [List.filter_eq_nil_iff]
  constructor
  · intro h p hp hr hs
    have := h p hp
    simp [hr, hs] at this
  · intro h p hp
    by_cases hr : p.role = Role.WEREWOLF
    · have hs := h p hp hr
      simp [hr, hs]
    · simp [hr]

/-- The villager filter is empty exactly when no non-werewolf is ALIVE or
PROTECTED. -/
lemma villagersFilter_nil_iff (g : Game) :
    g.players.filter
      (fun p => p.role != Role.WEREWOLF &&
        (p.status == Status.ALIVE || p.status == Status.PROTECTED)) = [] ↔
    ∀ p ∈ g.players, p.role ≠ Role.WEREWOLF →
      p.status ≠ Status.ALIVE ∧ p.status ≠ Status.PROTECTED := by
  rw [List.filter_eq_nil_iff]
  constructor
  · intro h p hp hr
    have := h p hp
    constructor
    · intro hs
      simp [hr, hs] at this
    · intro hs
      simp [hr, hs] at this
  · intro h p hp
    by_cases hr : p.role = Role.WEREWOLF
    · simp [hr]
    · have hs := h p hp hr
      simp [hr, hs.1, hs.2]

/-- The werewolf filter is nonempty exactly when some werewolf has status
ALIVE. -/
lemma wolvesFilter_ne_nil_iff (g : Game) :
    g.players.filter
      (fun p => p.role == Role.WEREWOLF && p.status == Status.ALIVE) ≠ [] ↔
    ∃ p ∈ g.players, p.role = Role.WEREWOLF ∧ p.status = Status.ALIVE := by
  rw [ne_eq, wolvesFilter_nil_iff]
  push_neg
  rfl

/-- The villager filter is nonempty exactly when some non-werewolf is
ALIVE or PROTECTED. -/
lemma villagersFilter_ne_nil_iff (g : Game) :
    g.players.filter
      (fun p => p.role != Role.WEREWOLF &&
        (p.status == Status.ALIVE || p.status == Status.PROTECTED)) ≠ [] ↔
    ∃ p ∈ g.players, p.role ≠ Role.WEREWOLF ∧
      (p.status = Status.ALIVE ∨ p.status = Status.PROTECTED) := by
  rw [ne_eq, villagersFilter_nil_iff]
  push_neg
  constructor
  · rintro ⟨p, hp, hr, hs⟩
    refine ⟨p, hp, hr, ?_⟩
    by_cases h1 : p.status = Status.ALIVE
    · exact Or.inl h1
    · exact Or.inr (hs h1)
  · rintro ⟨p, hp, hr, hs⟩
    refine ⟨p, hp, hr, ?_⟩
    intro h1
    rcases hs with hs | hs
    · exact absurd hs h1
    · exact hs

/-- The orchestrator's victory check sets VILLAGERS_VICTORY exactly when
no werewolf has status ALIVE. -/
lemma checkVictory_VV_iff (g : Game)
    (hv1 : g.phase ≠ GamePhase.VILLAGERS_VICTORY)
    (hv2 : g.phase ≠ GamePhase.WEREWOLVES_VICTORY) :
    g.checkVictoryConditions.phase = GamePhase.VILLAGERS_VICTORY ↔
      ∀ p ∈ g.players, p.role = Role.WEREWOLF → p.status ≠ Status.ALIVE := by
  have hterm : ¬(g.phase = GamePhase.VILLAGERS_VICTORY ∨
      g.phase = GamePhase.WEREWOLVES_VICTORY) := by
    rintro (h | h)
    · exact hv1 h
    · exact hv2 h
  rw [checkVictory_reduce g hterm]
  by_cases h1 : g.players.filter
      (fun p => p.role == Role.WEREWOLF && p.status == Status.ALIVE) = []
  · rw [if_pos h1]
    simpa using (wolvesFilter_nil_iff g).mp h1
  · rw [if_neg h1]
    have hex := (wolvesFilter_ne_nil_iff g).mp h1
    by_cases h2 : g.players.filter
        (fun p => p.role != Role.WEREWOLF &&
          (p.status == Status.ALIVE || p.status == Status.PROTECTED)) = []
    · rw [if_pos h2]
      constructor
      · intro h
        exact absurd h (by simp)
      · intro h
        rcases hex with ⟨p, hp, hr, hs⟩
        exact absurd hs (h p hp hr)
    · rw [if_neg h2]
      constructor
      · intro h
        exact absurd h hv1
      · intro h
        rcases hex with ⟨p, hp, hr, hs⟩
        exact absurd hs (h p hp hr)

/-- The orchestrator's victory check sets WEREWOLVES_VICTORY exactly when
some werewolf is ALIVE and no non-werewolf is ALIVE or PROTECTED. -/
lemma checkVictory_WV_iff (g : Game)
    (hv1 : g.phase ≠ GamePhase.VILLAGERS_VICTORY)
    (hv2 : g.phase ≠ GamePhase.WEREWOLVES_VICTORY) :
    g.checkVictoryConditions.phase = GamePhase.WEREWOLVES_VICTORY ↔
      (∃ p ∈ g.players, p.role = Role.WEREWOLF ∧ p.status = Status.ALIVE) ∧
      ∀ p ∈ g.players, p.role ≠ Role.WEREWOLF →
        p.status ≠ Status.ALIVE ∧ p.status ≠ Status.PROTECTED := by
  have hterm : ¬(g.phase = GamePhase.VILLAGERS_VICTORY ∨
      g.phase = GamePhase.WEREWOLVES_VICTORY) := by
    rintro (h | h)
    · exact hv1 h
    · exact hv2 h
  rw [checkVictory_reduce g hterm]
  by_cases h1 : g.players.filter
      (fun p => p.role == Role.WEREWOLF && p.status == Status.ALIVE) = []
  · rw [if_pos h1]
    constructor
    · intro h
      exact absurd h (by simp)
    · rintro ⟨⟨p, hp, hr, hs⟩, -⟩
      exact absurd hs ((wolvesFilter_nil_iff g).mp h1 p hp hr)
  · rw [if_neg h1]
    have hex := (wolvesFilter_ne_nil_iff g).mp h1
    by_cases h2 : g.players.filter
        (fun p => p.role != Role.WEREWOLF &&
          (p.status == Status.ALIVE || p.status == Status.PROTECTED)) = []
    · rw [if_pos h2]
      constructor
      · intro _
        exact ⟨hex, (villagersFilter_nil_iff g).mp h2⟩
      · intro _
        simp
    · rw [if_neg h2]
      constructor
      · intro h
        exact absurd h hv2
      · rintro ⟨-, h⟩
        rcases (villagersFilter_ne_nil_iff g).mp h2 with ⟨p, hp, hr, hs⟩
        rcases hs with hs | hs
        · exact absurd hs (h p hp hr).1
        · exact absurd hs (h p hp hr).2

/-- The orchestrator's victory check leaves the phase alone exactly when
both teams still have a living (for werewolves: ALIVE; for villagers:
ALIVE or PROTECTED) member. -/
lemma checkVictory_unchanged_iff (g : Game)
    (hv1 : g.phase ≠ GamePhase.VILLAGERS_VICTORY)
    (hv2 : g.phase ≠ GamePhase.WEREWOLVES_VICTORY) :
    g.checkVictoryConditions.phase = g.phase ↔
      (∃ p ∈ g.players, p.role = Role.WEREWOLF ∧ p.status = Status.ALIVE) ∧
      (∃ p ∈ g.players, p.role ≠ Role.WEREWOLF ∧
        (p.status = Status.ALIVE ∨ p.status = Status.PROTECTED)) := by
  have hterm : ¬(g.phase = GamePhase.VILLAGERS_VICTORY ∨
      g.phase = GamePhase.WEREWOLVES_VICTORY) := by
    rintro (h | h)
    · exact hv1 h
    · exact hv2 h
  rw [checkVictory_reduce g hterm]
  by_cases h1 : g.players.filter
      (fun p => p.role == Role.WEREWOLF && p.status == Status.ALIVE) = []
  · rw [if_pos h1]
    constructor
    · intro h
      exact absurd h.symm hv1
    · rintro ⟨⟨p, hp, hr, hs⟩, -⟩
      exact absurd hs ((wolvesFilter_nil_iff g).mp h1 p hp hr)
  · rw [if_neg h1]
    have hex := (wolvesFilter_ne_nil_iff g).mp h1
    by_cases h2 : g.players.filter
        (fun p => p.role != Role.WEREWOLF &&
          (p.status == Status.ALIVE || p.status == Status.PROTECTED)) = []
    · rw [if_pos h2]
      constructor
      · intro h
        exact absurd h.symm hv2
      · rintro ⟨-, ⟨p, hp, hr, hs⟩⟩
        rcases hs with hs | hs
        · exact absurd hs ((villagersFilter_nil_iff g).mp h2 p hp hr).1
        · exact absurd hs ((villagersFilter_nil_iff g).mp h2 p hp hr).2
    · rw [if_neg h2]
      constructor
      · intro _
        exact ⟨hex, (villagersFilter_ne_nil_iff g).mp h2⟩
      · intro _
        rfl

/-- **C3 (amended).** `MinimalGameInfo.end_game_conditions` yields good
victory iff every evil player is dead (PROTECTED counting as alive), evil
victory iff some evil player is alive and every good player is dead, and
nothing otherwise. The orchestrator's `__check_victory_conditions` agrees
except that an evil player counts as alive only with status ALIVE — a
PROTECTED evil player counts as eliminated there — while a good player
counts as alive with status ALIVE or PROTECTED; good victory takes
precedence when both victory conditions hold at once. -/
theorem victory_conditions_characterization :
    (∀ ps : List Player,
      (MinimalGameInfo.endGameConditions ps = some GamePhase.VILLAGERS_VICTORY ↔
        ∀ p ∈ ps, p.is_evil = true → p.is_alive = false) ∧
      (MinimalGameInfo.endGameConditions ps = some GamePhase.WEREWOLVES_VICTORY ↔
        (∃ p ∈ ps, p.is_evil = true ∧ p.is_alive = true) ∧
        ∀ p ∈ ps, p.is_evil = false → p.is_alive = false) ∧
      (MinimalGameInfo.endGameConditions ps = none ↔
        (∃ p ∈ ps, p.is_evil = true ∧ p.is_alive = true) ∧
        (∃ p ∈ ps, p.is_evil = false ∧ p.is_alive = true))) ∧
    (∀ g : Game, g.phase ≠ GamePhase.VILLAGERS_VICTORY →
      g.phase ≠ GamePhase.WEREWOLVES_VICTORY →
      ((g.checkVictoryConditions.phase = GamePhase.VILLAGERS_VICTORY ↔
        ∀ p ∈ g.players, p.role = Role.WEREWOLF → p.status ≠ Status.ALIVE) ∧
       (g.checkVictoryConditions.phase = GamePhase.WEREWOLVES_VICTORY ↔
        (∃ p ∈ g.players, p.role = Role.WEREWOLF ∧ p.status = Status.ALIVE) ∧
        ∀ p ∈ g.players, p.role ≠ Role.WEREWOLF →
          p.status ≠ Status.ALIVE ∧ p.status ≠ Status.PROTECTED) ∧
       (g.checkVictoryConditions.phase = g.phase ↔
        (∃ p ∈ g.players, p.role = Role.WEREWOLF ∧ p.status = Status.ALIVE) ∧
        (∃ p ∈ g.players, p.role ≠ Role.WEREWOLF ∧
          (p.status = Status.ALIVE ∨ p.status = Status.PROTECTED))))) :=
  ⟨fun ps => ⟨endGameConditions_VV_iff ps, endGameConditions_WV_iff ps,
    endGameConditions_none_iff ps⟩,
   fun g h1 h2 => ⟨checkVictory_VV_iff g h1 h2, checkVictory_WV_iff g h1 h2,
    checkVictory_unchanged_iff g h1 h2⟩⟩

/-- Instantiation of the victory characterization at concrete rosters:
a dead werewolf with a living villager is a good victory for the baseline
check, and the orchestrator's check leaves an ongoing two-sided game
alone. -/
theorem victory_conditions_characterization_witness :
    MinimalGameInfo.endGameConditions
      [⟨"w", Role.WEREWOLF, Status.DEAD⟩, ⟨"v", Role.VILLAGER, Status.ALIVE⟩] =
      some GamePhase.VILLAGERS_VICTORY ∧
    (Game.init sampleRoster).checkVictoryConditions.phase =
      GamePhase.DAY_DISCUSSION := by
  constructor
  · exact ((victory_conditions_characterization.1 _).1).mpr (by decide)
  · exact ((victory_conditions_characterization.2 (Game.init sampleRoster)
      (by decide) (by decide)).2.2).mpr (by decide)

/-- In a terminal phase the victory check is the identity. -/
lemma checkVictory_terminal (g : Game)
    (h : g.phase = GamePhase.VILLAGERS_VICTORY ∨
      g.phase = GamePhase.WEREWOLVES_VICTORY) :
    g.checkVictoryConditions = g := by
  simp only [Game.checkVictoryConditions, if_pos h]

/-- Mutating a player's status never touches the phase. -/
lemma setStatus_phase (g : Game) (i : Nat) (st : Status) :
    (g.setStatus i st).phase = g.phase := by
  rcases hp : g.players[i]? with _ | p <;> simp [Game.setStatus, hp]

/-- The `kill_player` epilogue preserves a terminal phase. -/
lemma killFinish_phase_terminal (g : Game) (i : Nat)
    (h : g.phase = GamePhase.VILLAGERS_VICTORY ∨
      g.phase = GamePhase.WEREWOLVES_VICTORY) :
    (g.killFinish i).1.phase = g.phase := by
  simp only [Game.killFinish]
  rw [checkVictory_terminal _ (by rw [setStatus_phase]; exact h)]
  exact setStatus_phase g i Status.DEAD

/-- `advance_phase` in a terminal phase is a no-op. -/
lemma advancePhase_terminal (g : Game)
    (h : g.phase = GamePhase.VILLAGERS_VICTORY ∨
      g.phase = GamePhase.WEREWOLVES_VICTORY) :
    g.advancePhase = g := by
  rcases h with h | h
  · simp only [Game.advancePhase, h]
    exact checkVictory_terminal g (Or.inl h)
  · simp only [Game.advancePhase, h]
    exact checkVictory_terminal g (Or.inr h)

/-- `kill_player` in a terminal phase never changes the phase (it may
still flip the player to DEAD). -/
lemma killPlayer_phase_terminal (g : Game) (pid : String)
    (h : g.phase = GamePhase.VILLAGERS_VICTORY ∨
      g.phase = GamePhase.WEREWOLVES_VICTORY) :
    (g.killPlayer pid).1.phase = g.phase := by
  rcases hf : g.getPlayerFromId pid with _ | i
  · simp [Game.killPlayer, hf]
  · rcases hp : g.players[i]? with _ | p
    · simp [Game.killPlayer, hf, hp]
    · by_cases ha : p.is_alive = true
      · have hfin := killFinish_phase_terminal g i h
        rcases h with h | h <;>
          simp only [Game.killPlayer, hf, hp, ha, h, Bool.not_eq_true,
            Bool.true_eq_false, if_neg, not_false_iff, ite_false] <;>
          rw [if_neg (by simp), hfin, h]
      · simp [Game.killPlayer, hf, hp, ha]

/-- **C8.** The phase ranges over the six `GamePhase` values by
construction, and a victory phase is absorbing: whatever sequence of
`advance_phase` and `kill_player` calls follows, the phase stays exactly
the victory phase that was reached. -/
theorem victory_phase_absorbing (g : Game) (ops : List GameOp)
    (h : g.phase = GamePhase.VILLAGERS_VICTORY ∨
      g.phase = GamePhase.WEREWOLVES_VICTORY) :
    (g.run ops).phase = g.phase := by
  induction ops generalizing g with
  | nil => rfl
  | cons op rest ih =>
    have hstep : (g.applyOp op).phase = g.phase := by
      cases op with
      | advance =>
          show g.advancePhase.phase = g.phase
          rw [advancePhase_terminal g h]
      | kill pid => exact killPlayer_phase_terminal g pid h
    have h' : (g.applyOp op).phase = GamePhase.VILLAGERS_VICTORY ∨
        (g.applyOp op).phase = GamePhase.WEREWOLVES_VICTORY := by
      rw [hstep]
      exact h
    calc (g.run (op :: rest)).phase
        = ((g.applyOp op).run rest).phase := rfl
      _ = (g.applyOp op).phase := ih _ h'
      _ = g.phase := hstep

/-- The absorbing property applied to a finished match and a concrete burst
of further calls: the phase stays VILLAGERS_VICTORY. -/
theorem victory_phase_absorbing_witness :
    (villagersWonGame.run
      [GameOp.advance, GameOp.kill "Bob", GameOp.advance,
       GameOp.kill "Alice", GameOp.advance]).phase =
      GamePhase.VILLAGERS_VICTORY :=
  (victory_phase_absorbing villagersWonGame
    [GameOp.advance, GameOp.kill "Bob", GameOp.advance,
     GameOp.kill "Alice", GameOp.advance] (Or.inl (by decide))).trans (by decide)

/-- **C10.** In the night phase the orchestrator's `perform_night_action`
always raises for a living actor whose role is VILLAGER — the `match` on
the actor's role has no villager case, so it falls into the
`Unknown role` raise — even though the baseline rule module lists
VILLAGER among its handled roles and its dispatcher accepts a villager
actor as a silent no-op returning None with the module state untouched. -/
theorem villager_night_action_unhandled :
    (∀ (g : Game) (aid tid : String) (p : Player),
      g.phase = GamePhase.NIGHT → g.resolve aid = some p →
      p.is_alive = true → p.role = Role.VILLAGER →
      g.performNightAction aid tid = (g, none, some "Unknown role")) ∧
    Role.VILLAGER ∈ MinimalGameInfo.getHandledRoles ∧
    (∀ (info : MinimalGameInfo) (actor target : Player),
      actor.role = Role.VILLAGER →
      info.handleNightActions actor target = (info, none, none)) := by
  refine ⟨?_, by decide, ?_⟩
  · intro g aid tid p hph hres halive hrole
    rw [Game.resolve, Option.bind_eq_some] at hres
    rcases hres with ⟨i, hidx, hp⟩
    simp [Game.performNightAction, hph, hidx, hp, halive, hrole]
  · intro info actor target hrole
    simp [MinimalGameInfo.handleNightActions, MinimalGameInfo.handleNightActionsHook,
      MinimalGameInfo.getHandledRoles, hrole]

/-- The villager-rejection behavior at a concrete night state: Alice the
villager acts on Bob; the orchestrator raises, while the baseline module
accepts the same actor silently. -/
theorem villager_night_action_unhandled_witness :
    villagerNightGame.performNightAction "Alice" "Bob" =
      (villagerNightGame, none, some "Unknown role") ∧
    MinimalGameInfo.init.handleNightActions
      ⟨"Alice", Role.VILLAGER, Status.ALIVE⟩ ⟨"Bob", Role.WEREWOLF, Status.ALIVE⟩ =
      (MinimalGameInfo.init, none, none) :=
  ⟨villager_night_action_unhandled.1 villagerNightGame "Alice" "Bob"
      ⟨"Alice", Role.VILLAGER, Status.ALIVE⟩ (by decide) (by decide) (by decide) rfl,
   villager_night_action_unhandled.2.2 MinimalGameInfo.init
      ⟨"Alice", Role.VILLAGER, Status.ALIVE⟩ ⟨"Bob", Role.WEREWOLF, Status.ALIVE⟩ rfl⟩

/-- The victory check only ever touches the phase. -/
lemma checkVictory_fields (g : Game) :
    g.checkVictoryConditions.players = g.players ∧
    g.checkVictoryConditions.accusingVotes = g.accusingVotes ∧
    g.checkVictoryConditions.wolvesVotes = g.wolvesVotes ∧
    g.checkVictoryConditions.ballotVotes = g.ballotVotes ∧
    g.checkVictoryConditions.protectedPlayer = g.protectedPlayer ∧
    g.checkVictoryConditions.currentAccusation = g.currentAccusation := by
  simp only [Game.checkVictoryConditions]
  split
  · exact ⟨rfl, rfl, rfl, rfl, rfl, rfl⟩
  · split
    · exact ⟨rfl, rfl, rfl, rfl, rfl, rfl⟩
    · split
      · exact ⟨rfl, rfl, rfl, rfl, rfl, rfl⟩
      · exact ⟨rfl, rfl, rfl, rfl, rfl, rfl⟩

/-- A status write only ever touches the roster. -/
lemma setStatus_fields (g : Game) (i : Nat) (st : Status) :
    (g.setStatus i st).accusingVotes = g.accusingVotes ∧
    (g.setStatus i st).wolvesVotes = g.wolvesVotes ∧
    (g.setStatus i st).ballotVotes = g.ballotVotes ∧
    (g.setStatus i st).protectedPlayer = g.protectedPlayer ∧
    (g.setStatus i st).currentAccusation = g.currentAccusation := by
  rcases hp : g.players[i]? with _ | p <;> simp [Game.setStatus, hp]

/-- Roster effect of a status write on a resolvable reference. -/
lemma setStatus_players_some (g : Game) (i : Nat) (st : Status) (p : Player)
    (hp : g.players[i]? = some p) :
    (g.setStatus i st).players = g.players.set i { p with status := st } := by
  simp [Game.setStatus, hp]

/-- After `__setup_new_day` all three vote maps are empty. -/
lemma setupNewDay_votes (g : Game) :
    g.setupNewDay.accusingVotes = [] ∧
    g.setupNewDay.wolvesVotes = [] ∧
    g.setupNewDay.ballotVotes = [] := by
  rcases hpp : g.protectedPlayer with _ | j
  · simp [Game.setupNewDay, hpp]
  · simp only [Game.setupNewDay, hpp, Game.setStatus]
    rcases hq : g.players[j]? with _ | q <;> simp [hq]

/-- After `__setup_new_day` the protected-player slot is clear. -/
lemma setupNewDay_protected (g : Game) :
    g.setupNewDay.protectedPlayer = none := by
  rcases hpp : g.protectedPlayer with _ | j
  · simp [Game.setupNewDay, hpp]
  · simp only [Game.setupNewDay, hpp, Game.setStatus]

/-- Roster effect of `__setup_new_day` with no protection tracked. -/
lemma setupNewDay_players_none (g : Game) (h : g.protectedPlayer = none) :
    g.setupNewDay.players = g.players := by
  simp [Game.setupNewDay, h]

/-- Roster effect of `__setup_new_day` with a tracked protected player:
that player's status is rewritten to ALIVE. -/
lemma setupNewDay_players_some (g : Game) (j : Nat) (q : Player)
    (h : g.protectedPlayer = some j) (hq : g.players[j]? = some q) :
    g.setupNewDay.players = g.players.set j { q with status := Status.ALIVE } := by
  simp [Game.setupNewDay, h, Game.setStatus, hq]

/-- Reading an element of `l.set i a` hits either the overwritten slot or
the untouched original slot. -/
lemma getElem?_set_cases {l : List Player} {i k : Nat} {a p' : Player}
    (h : (l.set i a)[k]? = some p') :
    (k = i ∧ p' = a) ∨ (k ≠ i ∧ l[k]? = some p') := by
  rw [List.getElem?_set] at h
  by_cases hik : i = k
  · rw [if_pos hik] at h
    by_cases hlen : i < l.length
    · rw [if_pos hlen] at h
      exact Or.inl ⟨hik.symm, (Option.some_inj.mp h).symm⟩
    · rw [if_neg hlen] at h
      cases h
  · rw [if_neg hik] at h
    exact Or.inr ⟨fun hk => hik hk.symm, h⟩

/-- The tail of the NIGHT branch of `advance_phase` (new-day reset plus
victory check) leaves empty vote maps, a cleared protection slot, and the
roster produced by the reset. -/
lemma finalize_fields (X : Game) :
    (Game.checkVictoryConditions
      { X.setupNewDay with phase := GamePhase.DAY_DISCUSSION }).accusingVotes = [] ∧
    (Game.checkVictoryConditions
      { X.setupNewDay with phase := GamePhase.DAY_DISCUSSION }).wolvesVotes = [] ∧
    (Game.checkVictoryConditions
      { X.setupNewDay with phase := GamePhase.DAY_DISCUSSION }).ballotVotes = [] ∧
    (Game.checkVictoryConditions
      { X.setupNewDay with phase := GamePhase.DAY_DISCUSSION }).protectedPlayer = none ∧
    (Game.checkVictoryConditions
      { X.setupNewDay with phase := GamePhase.DAY_DISCUSSION }).players =
      X.setupNewDay.players := by
  obtain ⟨hp, ha, hw, hb, hpr, -⟩ :=
    checkVictory_fields { X.setupNewDay with phase := GamePhase.DAY_DISCUSSION }
  exact ⟨ha.trans (setupNewDay_votes X).1, hw.trans (setupNewDay_votes X).2.1,
    hb.trans (setupNewDay_votes X).2.2, hpr.trans (setupNewDay_protected X), hp⟩


/-- **C6.** Advancing out of the night phase kills the unique plurality
target of the evil-team votes only if it is not PROTECTED (a PROTECTED
victim survives and ends the night ALIVE), and the completed transition
leaves all three vote maps empty, no player PROTECTED, and the
protected-player slot cleared. The hypotheses are the data-model
invariants: every PROTECTED player is the tracked protected player, and
the tracked protected player exists with status PROTECTED. -/
theorem night_resolution_clears_state (g : Game)
    (hph : g.phase = GamePhase.NIGHT)
    (hprot1 : ∀ i : Fin g.players.length,
      (g.players.get i).status = Status.PROTECTED → g.protectedPlayer = some i.val)
    (hprot2 : (g.protectedPlayer.all
      fun j => (g.players[j]?).map Player.status == some Status.PROTECTED) = true) :
    (g.advancePhase.accusingVotes = [] ∧ g.advancePhase.wolvesVotes = [] ∧
     g.advancePhase.ballotVotes = [] ∧ g.advancePhase.protectedPlayer = none ∧
     ∀ p ∈ g.advancePhase.players, p.status ≠ Status.PROTECTED) ∧
    (∀ v p, g.nightVictim g.wolvesVotes = some v → g.players[v]? = some p →
      g.advancePhase.players[v]? =
        some { p with status :=
          if p.status = Status.PROTECTED then Status.ALIVE else Status.DEAD }) := by
  have protFromMem : ∀ (k : Nat) (p' : Player), g.players[k]? = some p' →
      p'.status = Status.PROTECTED → g.protectedPlayer = some k := by
    intro k p' hg hs
    obtain ⟨hlen, heq⟩ := List.getElem?_eq_some.mp hg
    refine hprot1 ⟨k, hlen⟩ ?_
    rw [List.get_eq_getElem]
    simpa [heq] using hs
  have protTracked : ∀ j, g.protectedPlayer = some j →
      ∃ q, g.players[j]? = some q ∧ q.status = Status.PROTECTED := by
    intro j hj
    rw [hj, Option.all_some, beq_iff_eq] at hprot2
    obtain ⟨q, hq, hqs⟩ := Option.map_eq_some'.mp hprot2
    exact ⟨q, hq, hqs⟩
  have noProtAfter : ∀ X : Game,
      X.protectedPlayer = g.protectedPlayer →
      (∀ j q, g.protectedPlayer = some j → g.players[j]? = some q →
        q.status = Status.PROTECTED → X.players[j]? = some q) →
      (∀ (k : Nat) (p' : Player), X.players[k]? = some p' →
        g.players[k]? = some p' ∨ p'.status ≠ Status.PROTECTED) →
      ∀ p' ∈ X.setupNewDay.players, p'.status ≠ Status.PROTECTED := by
    intro X hXp hXq hXmem p' hmem hs
    rcases hpp : g.protectedPlayer with _ | j
    · rw [setupNewDay_players_none X (hXp.trans hpp)] at hmem
      obtain ⟨k, hk⟩ := List.mem_iff_getElem?.mp hmem
      rcases hXmem k p' hk with hgk | hns
      · exact Option.noConfusion ((protFromMem k p' hgk hs).symm.trans hpp)
      · exact hns hs
    · obtain ⟨q, hq, hqs⟩ := protTracked j hpp
      have hXqj : X.players[j]? = some q := hXq j q hpp hq hqs
      rw [setupNewDay_players_some X j q (hXp.trans hpp) hXqj] at hmem
      obtain ⟨k, hk⟩ := List.mem_iff_getElem?.mp hmem
      rcases getElem?_set_cases hk with ⟨-, hpq⟩ | ⟨hkj, hk2⟩
      · rw [hpq] at hs
        exact Status.noConfusion hs
      · rcases hXmem k p' hk2 with hgk | hns
        · exact hkj (Option.some_inj.mp ((protFromMem k p' hgk hs).symm.trans hpp))
        · exact hns hs
  rcases hvic : g.nightVictim g.wolvesVotes with _ | v0
  case none =>
    have hadv : g.advancePhase =
        Game.checkVictoryConditions
          { g.setupNewDay with phase := GamePhase.DAY_DISCUSSION } := by
      simp only [Game.advancePhase, hph, hvic]
    obtain ⟨f1, f2, f3, f4, f5⟩ := finalize_fields g
    refine ⟨⟨hadv ▸ f1, hadv ▸ f2, hadv ▸ f3, hadv ▸ f4, ?_⟩, ?_⟩
    · rw [hadv, f5]
      exact noProtAfter g rfl (fun j q _ hq _ => hq) (fun k p' hk => Or.inl hk)
    · intro v p h1 h2
      cases h1
  case some =>
    rcases hpv : g.players[v0]? with _ | p
    case none =>
      have hadv : g.advancePhase =
          Game.checkVictoryConditions
            { g.setupNewDay with phase := GamePhase.DAY_DISCUSSION } := by
        simp only [Game.advancePhase, hph, hvic, hpv]
      obtain ⟨f1, f2, f3, f4, f5⟩ := finalize_fields g
      refine ⟨⟨hadv ▸ f1, hadv ▸ f2, hadv ▸ f3, hadv ▸ f4, ?_⟩, ?_⟩
      · rw [hadv, f5]
        exact noProtAfter g rfl (fun j q _ hq _ => hq) (fun k p' hk => Or.inl hk)
      · intro v p h1 h2
        rw [← Option.some_inj.mp h1] at h2
        exact Option.noConfusion (hpv.symm.trans h2)
    case some =>
      by_cases hst : p.status = Status.PROTECTED
      · have hpp : g.protectedPlayer = some v0 := protFromMem v0 p hpv hst
        have hadv : g.advancePhase =
            Game.checkVictoryConditions
              { g.setupNewDay with phase := GamePhase.DAY_DISCUSSION } := by
          simp only [Game.advancePhase, hph, hvic, hpv, hst]
          simp
        obtain ⟨f1, f2, f3, f4, f5⟩ := finalize_fields g
        refine ⟨⟨hadv ▸ f1, hadv ▸ f2, hadv ▸ f3, hadv ▸ f4, ?_⟩, ?_⟩
        · rw [hadv, f5]
          exact noProtAfter g rfl (fun j q _ hq _ => hq) (fun k p' hk => Or.inl hk)
        · intro v p2 h1 h2
          have hv : v = v0 := (Option.some_inj.mp h1).symm
          rw [hv] at h2 ⊢
          have hp2 : p2 = p := (Option.some_inj.mp (hpv.symm.trans h2)).symm
          rw [hp2, if_pos hst, hadv, f5,
            setupNewDay_players_some g v0 p hpp hpv, List.getElem?_set]
          obtain ⟨hlen, -⟩ := List.getElem?_eq_some.mp hpv
          rw [if_pos rfl, if_pos hlen]
      · have hadv : g.advancePhase =
            Game.checkVictoryConditions
              { (g.setStatus v0 Status.DEAD).setupNewDay with
                phase := GamePhase.DAY_DISCUSSION } := by
          simp only [Game.advancePhase, hph, hvic, hpv]
          rw [if_pos hst]
        have hXplayers : (g.setStatus v0 Status.DEAD).players =
            g.players.set v0 { p with status := Status.DEAD } :=
          setStatus_players_some g v0 Status.DEAD p hpv
        have hXprot : (g.setStatus v0 Status.DEAD).protectedPlayer =
            g.protectedPlayer := (setStatus_fields g v0 Status.DEAD).2.2.2.1
        obtain ⟨f1, f2, f3, f4, f5⟩ := finalize_fields (g.setStatus v0 Status.DEAD)
        refine ⟨⟨hadv ▸ f1, hadv ▸ f2, hadv ▸ f3, hadv ▸ f4, ?_⟩, ?_⟩
        · rw [hadv, f5]
          refine noProtAfter (g.setStatus v0 Status.DEAD) hXprot ?_ ?_
          · intro j q hjp hq hqs
            have hjv : j ≠ v0 := by
              intro h
              rw [h] at hq
              rw [Option.some_inj.mp (hpv.symm.trans hq)] at hst
              exact hst hqs
            rw [hXplayers, List.getElem?_set_ne (Ne.symm hjv)]
            exact hq
          · intro k p' hk
            rw [hXplayers] at hk
            rcases getElem?_set_cases hk with ⟨-, hpq⟩ | ⟨-, hk2⟩
            · right
              rw [hpq]
              intro h
              exact Status.noConfusion h
            · exact Or.inl hk2
        · intro v p2 h1 h2
          have hv : v = v0 := (Option.some_inj.mp h1).symm
          rw [hv] at h2 ⊢
          have hp2 : p2 = p := (Option.some_inj.mp (hpv.symm.trans h2)).symm
          rw [hp2, if_neg hst, hadv, f5]
          rcases hpp : g.protectedPlayer with _ | j
          · rw [setupNewDay_players_none _ (hXprot.trans hpp), hXplayers,
              List.getElem?_set]
            obtain ⟨hlen, -⟩ := List.getElem?_eq_some.mp hpv
            rw [if_pos rfl, if_pos hlen]
          · obtain ⟨q, hq, hqs⟩ := protTracked j hpp
            have hjv : j ≠ v0 := by
              intro h
              rw [h] at hq
              rw [Option.some_inj.mp (hpv.symm.trans hq)] at hst
              exact hst hqs
            have hXqj : (g.setStatus v0 Status.DEAD).players[j]? = some q := by
              rw [hXplayers, List.getElem?_set_ne (Ne.symm hjv)]
              exact hq
            rw [setupNewDay_players_some _ j q (hXprot.trans hpp) hXqj,
              List.getElem?_set_ne hjv, hXplayers, List.getElem?_set]
            obtain ⟨hlen, -⟩ := List.getElem?_eq_some.mp hpv
            rw [if_pos rfl, if_pos hlen]

/-- The night-resolution theorem at a concrete state: Bob's sole vote
targets the PROTECTED Alice; after `advance_phase` Alice is ALIVE, the
vote maps are empty and the protection slot is clear. -/
theorem night_resolution_clears_state_witness :
    protectedNightGame.advancePhase.wolvesVotes = [] ∧
    protectedNightGame.advancePhase.protectedPlayer = none ∧
    protectedNightGame.advancePhase.players[0]? =
      some ⟨"Alice", Role.VILLAGER, Status.ALIVE⟩ := by
  have h := night_resolution_clears_state protectedNightGame (by decide)
    (by decide) (by decide)
  refine ⟨h.1.2.1, h.1.2.2.2.1, ?_⟩
  have h2 := h.2 0 ⟨"Alice", Role.VILLAGER, Status.PROTECTED⟩ (by decide) (by decide)
  simpa using h2

/-- `Player.__eq__` is the full structural equality of the three fields. -/
lemma pyPlayerEq_iff (a b : Player) : pyPlayerEq a b = true ↔ a = b := by
  cases a
  cases b
  simp [pyPlayerEq, Bool.and_eq_true, beq_iff_eq]
  tauto

/-- Python `==` is reflexive on players. -/
lemma pyPlayerEq_self (a : Player) : pyPlayerEq a a = true :=
  (pyPlayerEq_iff a a).mpr rfl

/-- A reference always compares equal to itself. -/
lemma refEq_self (g : Game) (i : Nat) : g.refEq i i = true := by
  unfold Game.refEq
  rcases hp : g.players[i]? with _ | p <;> simp [hp, pyPlayerEq_self]

/-- With pairwise-distinct roster records, reference equality is index
equality. -/
lemma refEq_eq_true_iff (g : Game) (hnd : g.players.Nodup) {i j : Nat}
    (hi : i < g.players.length) (hj : j < g.players.length) :
    g.refEq i j = true ↔ i = j := by
  unfold Game.refEq
  rw [List.getElem?_eq_getElem hi, List.getElem?_eq_getElem hj]
  simp only [pyPlayerEq_iff]
  exact hnd.getElem_inj_iff

/-- With distinct records and valid targets, the Counter count of a target
is the plain count of its index. -/
lemma countFor_eq (g : Game) (hnd : g.players.Nodup) (ts : List Nat)
    (hts : ∀ u ∈ ts, u < g.players.length) {t : Nat}
    (ht : t < g.players.length) :
    g.countFor ts t = ts.count t := by
  unfold Game.countFor
  refine (List.countP_congr ?_).trans (List.count_eq_countP t ts).symm
  intro u hu
  rw [refEq_eq_true_iff g hnd (hts u hu) ht, beq_iff_eq]

/-- With distinct records and valid entries, the embedded first-occurrence
fold coincides with the plain index version. -/
lemma firstOccs_aux (g : Game) (hnd : g.players.Nodup) :
    ∀ (ts acc : List Nat), (∀ u ∈ ts, u < g.players.length) →
      (∀ u ∈ acc, u < g.players.length) →
      ts.foldl (fun acc t =>
        if acc.any (fun u => g.refEq u t) then acc else acc ++ [t]) acc =
      ts.foldl (fun acc t => if t ∈ acc then acc else acc ++ [t]) acc := by
  intro ts
  induction ts with
  | nil =>
    intro acc _ _
    rfl
  | cons a ts ih =>
    intro acc hts hacc
    have ha : a < g.players.length := hts a (List.mem_cons_self a ts)
    have hcond : (acc.any fun u => g.refEq u a) = true ↔ a ∈ acc := by
      rw [List.any_eq_true]
      constructor
      · rintro ⟨u, hu, hr⟩
        rw [← (refEq_eq_true_iff g hnd (hacc u hu) ha).mp hr]
        exact hu
      · intro h
        exact ⟨a, h, refEq_self g a⟩
    simp only [List.foldl_cons]
    by_cases hmem : a ∈ acc
    · rw [if_pos (hcond.mpr hmem), if_pos hmem]
      exact ih acc (fun u hu => hts u (List.mem_cons_of_mem a hu)) hacc
    · rw [if_neg (fun hc => hmem (hcond.mp hc)), if_neg hmem]
      refine ih (acc ++ [a]) (fun u hu => hts u (List.mem_cons_of_mem a hu)) ?_
      intro u hu
      rcases List.mem_append.mp hu with hu | hu
      · exact hacc u hu
      · rw [List.mem_singleton.mp hu]
        exact ha

/-- Embedded `firstOccs` equals the reference version on valid inputs. -/
lemma firstOccs_eq (g : Game) (hnd : g.players.Nodup) (ts : List Nat)
    (hts : ∀ u ∈ ts, u < g.players.length) :
    g.firstOccs ts = firstOccsN ts :=
  firstOccs_aux g hnd ts [] hts (by intro u hu; cases hu)

/-- Membership in the first-occurrence list is membership in the input. -/
lemma mem_firstOccsN_aux (x : Nat) :
    ∀ (ts acc : List Nat),
      (x ∈ ts.foldl (fun acc t => if t ∈ acc then acc else acc ++ [t]) acc ↔
        x ∈ acc ∨ x ∈ ts) := by
  intro ts
  induction ts with
  | nil =>
    intro acc
    simp
  | cons a ts ih =>
    intro acc
    simp only [List.foldl_cons]
    by_cases hmem : a ∈ acc
    · rw [if_pos hmem, ih acc]
      constructor
      · rintro (h | h)
        · exact Or.inl h
        · exact Or.inr (List.mem_cons_of_mem a h)
      · rintro (h | h)
        · exact Or.inl h
        · rcases List.mem_cons.mp h with rfl | h
          · exact Or.inl hmem
          · exact Or.inr h
    · rw [if_neg hmem, ih (acc ++ [a])]
      constructor
      · rintro (h | h)
        · rcases List.mem_append.mp h with h | h
          · exact Or.inl h
          · exact Or.inr (by rw [List.mem_singleton.mp h]; exact List.mem_cons_self a ts)
        · exact Or.inr (List.mem_cons_of_mem a h)
      · rintro (h | h)
        · exact Or.inl (List.mem_append.mpr (Or.inl h))
        · rcases List.mem_cons.mp h with rfl | h
          · exact Or.inl (List.mem_append.mpr (Or.inr (List.mem_singleton.mpr rfl)))
          · exact Or.inr h

/-- Membership form for `firstOccsN`. -/
lemma mem_firstOccsN (x : Nat) (ts : List Nat) :
    x ∈ firstOccsN ts ↔ x ∈ ts := by
  rw [firstOccsN, mem_firstOccsN_aux]
  simp

/-- The first-occurrence list never repeats an index. -/
lemma nodup_firstOccsN_aux :
    ∀ (ts acc : List Nat), acc.Nodup →
      (ts.foldl (fun acc t => if t ∈ acc then acc else acc ++ [t]) acc).Nodup := by
  intro ts
  induction ts with
  | nil =>
    intro acc h
    exact h
  | cons a ts ih =>
    intro acc hacc
    simp only [List.foldl_cons]
    by_cases hmem : a ∈ acc
    · rw [if_pos hmem]
      exact ih acc hacc
    · rw [if_neg hmem]
      refine ih (acc ++ [a]) ?_
      rw [List.nodup_append]
      exact ⟨hacc, List.nodup_singleton a,
        fun u hu hu2 => hmem (by rw [List.mem_singleton.mp hu2] at hu; exact hu)⟩

/-- `firstOccsN` is duplicate-free. -/
lemma nodup_firstOccsN (ts : List Nat) : (firstOccsN ts).Nodup :=
  nodup_firstOccsN_aux ts [] List.nodup_nil

/-- A left fold with `max` dominates its initial value. -/
lemma init_le_foldl_max : ∀ (l : List Nat) (a : Nat), a ≤ l.foldl max a := by
  intro l
  induction l with
  | nil => intro a; exact Nat.le_refl a
  | cons b l ih =>
    intro a
    exact Nat.le_trans (Nat.le_max_left a b) (ih (max a b))

/-- A left fold with `max` dominates every list member. -/
lemma le_foldl_max : ∀ (l : List Nat) (a x : Nat), x ∈ l → x ≤ l.foldl max a := by
  intro l
  induction l with
  | nil =>
    intro a x hx
    cases hx
  | cons b l ih =>
    intro a x hx
    rcases List.mem_cons.mp hx with rfl | hx
    · exact Nat.le_trans (Nat.le_max_right a x) (init_le_foldl_max l (max a x))
    · exact ih (max a b) x hx

/-- A left fold with `max` is the initial value or a list member. -/
lemma foldl_max_mem : ∀ (l : List Nat) (a : Nat),
    l.foldl max a = a ∨ l.foldl max a ∈ l := by
  intro l
  induction l with
  | nil =>
    intro a
    exact Or.inl rfl
  | cons b l ih =>
    intro a
    rw [List.foldl_cons]
    rcases ih (max a b) with h | h
    · rcases max_choice a b with h2 | h2
      · exact Or.inl (h.trans h2)
      · exact Or.inr (by rw [h, h2]; exact List.mem_cons_self b l)
    · exact Or.inr (List.mem_cons_of_mem b h)

/-- The embedded maximum vote count equals the plain-count version. -/
lemma maxCount_eq (g : Game) (hnd : g.players.Nodup) (ts : List Nat)
    (hts : ∀ u ∈ ts, u < g.players.length) :
    g.maxCount ts = (ts.map fun u => ts.count u).foldl max 0 := by
  unfold Game.maxCount
  congr 1
  exact List.map_congr_left (fun u hu => countFor_eq g hnd ts hts (hts u hu))

/-- The embedded plurality-leader list equals the plain-count version. -/
lemma maxVoted_eq (g : Game) (hnd : g.players.Nodup) (ts : List Nat)
    (hts : ∀ u ∈ ts, u < g.players.length) :
    g.maxVoted ts = (firstOccsN ts).filter
      (fun u => ts.count u == (ts.map fun v => ts.count v).foldl max 0) := by
  unfold Game.maxVoted
  rw [firstOccs_eq g hnd ts hts]
  refine List.filter_congr ?_
  intro u hu
  rw [countFor_eq g hnd ts hts (hts u ((mem_firstOccsN u ts).mp hu)),
    maxCount_eq g hnd ts hts]

/-- A duplicate-free list whose members all equal `t`, containing `t`, is
the singleton `[t]`. -/
lemma nodup_eq_singleton {l : List Nat} {t : Nat} (hnd : l.Nodup)
    (hmem : t ∈ l) (huniq : ∀ u ∈ l, u = t) : l = [t] := by
  cases l with
  | nil => cases hmem
  | cons a l2 =>
    have ha : a = t := huniq a (List.mem_cons_self a l2)
    subst ha
    cases hl2 : l2 with
    | nil => rfl
    | cons b l3 =>
      have hbmem : b ∈ a :: l2 := by
        rw [hl2]
        exact List.mem_cons_of_mem a (List.mem_cons_self b l3)
      have hb : b = a := huniq b hbmem
      exfalso
      have hnotin := (List.nodup_cons.mp hnd).1
      rw [hl2, ← hb] at hnotin
      exact hnotin (List.mem_cons_self b l3)

/-- The strict-max characterization of the set of plurality leaders,
phrased over plain counts. -/
lemma strict_max_filter (ts : List Nat) (t : Nat) (hne : ts ≠ []) :
    (((firstOccsN ts).filter
        (fun u => ts.count u == (ts.map fun v => ts.count v).foldl max 0)).length = 1 ∧
     ((firstOccsN ts).filter
        (fun u => ts.count u == (ts.map fun v => ts.count v).foldl max 0)).head? =
        some t) ↔
    (t ∈ ts ∧ ∀ u ∈ ts, u ≠ t → ts.count u < ts.count t) := by
  set M := (ts.map fun v => ts.count v).foldl max 0 with hM
  set w := (firstOccsN ts).filter (fun u => ts.count u == M) with hw
  have hle : ∀ u ∈ ts, ts.count u ≤ M := by
    intro u hu
    exact le_foldl_max _ 0 _ (List.mem_map_of_mem (fun v => ts.count v) hu)
  have hattain : ∃ u ∈ ts, ts.count u = M := by
    rcases foldl_max_mem (ts.map fun v => ts.count v) 0 with h | h
    · exfalso
      rcases List.exists_mem_of_ne_nil ts hne with ⟨x, hx⟩
      have h1 : 0 < ts.count x := List.count_pos_iff.mpr hx
      have h2 : ts.count x ≤ M := hle x hx
      omega
    · rcases List.mem_map.mp h with ⟨u, hu, he⟩
      exact ⟨u, hu, he⟩
  have hmemw : ∀ u, u ∈ w ↔ (u ∈ ts ∧ ts.count u = M) := by
    intro u
    rw [hw, List.mem_filter, mem_firstOccsN, beq_iff_eq]
  constructor
  · rintro ⟨hlen, hhead⟩
    rcases List.length_eq_one.mp hlen with ⟨a, hae⟩
    have hat : a = t := by
      rw [hae] at hhead
      exact Option.some_inj.mp hhead
    subst hat
    have htw : a ∈ w := by
      rw [hae]
      exact List.mem_cons_self a []
    rcases (hmemw a).mp htw with ⟨hats, hcM⟩
    refine ⟨hats, ?_⟩
    intro u hu hne2
    rcases Nat.lt_or_ge (ts.count u) (ts.count a) with h | h
    · exact h
    · exfalso
      have h2 : ts.count u = M := Nat.le_antisymm (hle u hu) (by rw [← hcM]; exact h)
      have huw : u ∈ w := (hmemw u).mpr ⟨hu, h2⟩
      rw [hae] at huw
      exact hne2 (List.mem_singleton.mp huw)
  · rintro ⟨hmem, hstrict⟩
    have hct : ts.count t = M := by
      rcases hattain with ⟨u, hu, hcu⟩
      by_cases hut : u = t
      · rw [← hut]
        exact hcu
      · exfalso
        have h1 := hstrict u hu hut
        have h2 := hle t hmem
        omega
    have htw : t ∈ w := (hmemw t).mpr ⟨hmem, hct⟩
    have huniq : ∀ u ∈ w, u = t := by
      intro u hu
      rcases (hmemw u).mp hu with ⟨huts, hcu⟩
      by_contra hne2
      have := hstrict u huts hne2
      omega
    have hweq : w = [t] :=
      nodup_eq_singleton (List.Nodup.filter _ (nodup_firstOccsN ts)) htw huniq
    rw [hweq]
    exact ⟨rfl, rfl⟩

/-- Selecting the head of a length-one leader list, as the source writes
it, matches any property equivalent to the singleton characterization. -/
lemma ite_singleton_head (w : List Nat) (t : Nat) (P : Prop)
    (key : (w.length = 1 ∧ w.head? = some t) ↔ P) :
    ((if w.length == 1 then w.head? else none) = some t) ↔ P := by
  constructor
  · intro h
    by_cases hl : w.length = 1
    · rw [if_pos (beq_iff_eq.mpr hl)] at h
      exact key.mp ⟨hl, h⟩
    · rw [if_neg (fun hc => hl (beq_iff_eq.mp hc))] at h
      cases h
  · intro hP
    obtain ⟨hlen, hhead⟩ := key.mpr hP
    rw [if_pos (beq_iff_eq.mpr hlen)]
    exact hhead

/-- With distinct roster records and resolvable vote targets, the source's
plurality selection picks a candidate exactly when it is the single strict
maximum of the tally. -/
lemma pluralityWinner_some_iff (g : Game) (hnd : g.players.Nodup)
    (votes : List (Nat × Nat)) (hval : ∀ e ∈ votes, e.2 < g.players.length)
    (t : Nat) :
    g.pluralityWinner votes = some t ↔
      (t ∈ votes.map (fun e => e.2) ∧
       ∀ u ∈ votes.map (fun e => e.2), u ≠ t →
         (votes.map (fun e => e.2)).count u <
           (votes.map (fun e => e.2)).count t) := by
  have hts : ∀ u ∈ votes.map (fun e => e.2), u < g.players.length := by
    intro u hu
    rcases List.mem_map.mp hu with ⟨e, he, rfl⟩
    exact hval e he
  by_cases hne : votes.map (fun e => e.2) = []
  · rw [Game.pluralityWinner]
    simp [hne]
  · have hie : (votes.map (fun e => e.2)).isEmpty = false := by
      rw [Bool.eq_false_iff]
      intro h
      exact hne (List.isEmpty_iff.mp h)
    rw [Game.pluralityWinner]
    simp only [hie, Bool.false_eq_true, if_false]
    rw [maxVoted_eq g hnd _ hts]
    exact ite_singleton_head _ t _ (strict_max_filter (votes.map (fun e => e.2)) t hne)

/-- On a nonempty target list the maximum Counter value is positive (each
target votes at least for itself). -/
lemma maxCount_pos (g : Game) (ts : List Nat) (hne : ts ≠ []) :
    0 < g.maxCount ts := by
  rcases List.exists_mem_of_ne_nil ts hne with ⟨x, hx⟩
  have h1 : 0 < g.countFor ts x := by
    rw [Game.countFor, List.countP_pos_iff]
    exact ⟨x, hx, refEq_self g x⟩
  have h2 : g.countFor ts x ≤ g.maxCount ts :=
    le_foldl_max _ 0 _ (List.mem_map_of_mem (g.countFor ts) hx)
  omega

/-- The NIGHT branch's victim selection is the DAY_ACCUSING branch's
plurality selection: its extra `max_votes > 0` test never fails. -/
lemma nightVictim_eq_pluralityWinner (g : Game) (votes : List (Nat × Nat)) :
    g.nightVictim votes = g.pluralityWinner votes := by
  by_cases hne : votes.map (fun e => e.2) = []
  · rw [Game.nightVictim, Game.pluralityWinner]
    simp [hne]
  · have hie : (votes.map (fun e => e.2)).isEmpty = false := by
      rw [Bool.eq_false_iff]
      intro h
      exact hne (List.isEmpty_iff.mp h)
    rw [Game.nightVictim, Game.pluralityWinner]
    simp only [hie, Bool.false_eq_true, if_false]
    rw [if_pos (maxCount_pos g _ hne)]

/-- What a successful plurality selection says about the source's
intermediate data. -/
lemma pluralityWinner_some_elim (g : Game) (votes : List (Nat × Nat)) (t : Nat)
    (h : g.pluralityWinner votes = some t) :
    votes.map (fun e => e.2) ≠ [] ∧
    (g.maxVoted (votes.map (fun e => e.2))).length = 1 ∧
    (g.maxVoted (votes.map (fun e => e.2))).head? = some t := by
  by_cases hne : votes.map (fun e => e.2) = []
  · rw [Game.pluralityWinner] at h
    simp [hne] at h
  · have hie : (votes.map (fun e => e.2)).isEmpty = false := by
      rw [Bool.eq_false_iff]
      intro h2
      exact hne (List.isEmpty_iff.mp h2)
    rw [Game.pluralityWinner] at h
    simp only [hie, Bool.false_eq_true, if_false] at h
    by_cases hl : (g.maxVoted (votes.map (fun e => e.2))).length = 1
    · rw [if_pos (beq_iff_eq.mpr hl)] at h
      exact ⟨hne, hl, h⟩
    · rw [if_neg (fun hc => hl (beq_iff_eq.mp hc))] at h
      cases h

/-- What a failed plurality selection says: either no votes, or no single
leader. -/
lemma pluralityWinner_none_elim (g : Game) (votes : List (Nat × Nat))
    (h : g.pluralityWinner votes = none) (hne : votes.map (fun e => e.2) ≠ []) :
    (g.maxVoted (votes.map (fun e => e.2))).length ≠ 1 := by
  intro hl
  have hie : (votes.map (fun e => e.2)).isEmpty = false := by
    rw [Bool.eq_false_iff]
    intro h2
    exact hne (List.isEmpty_iff.mp h2)
  rw [Game.pluralityWinner] at h
  simp only [hie, Bool.false_eq_true, if_false] at h
  rw [if_pos (beq_iff_eq.mpr hl)] at h
  rcases List.length_eq_one.mp hl with ⟨a, hae⟩
  rw [hae] at h
  cases h

/-- The accusing-phase transition when the plurality selection fails:
no accusation is set and, with both teams still standing, the phase skips
to night. -/
lemma accusing_no_winner (g : Game)
    (hacc : g.phase = GamePhase.DAY_ACCUSING)
    (hnone : g.pluralityWinner g.accusingVotes = none)
    (hw : ∃ p ∈ g.players, p.role = Role.WEREWOLF ∧ p.status = Status.ALIVE)
    (hv : ∃ p ∈ g.players, p.role ≠ Role.WEREWOLF ∧
      (p.status = Status.ALIVE ∨ p.status = Status.PROTECTED)) :
    g.advancePhase.phase = GamePhase.NIGHT ∧
    g.advancePhase.currentAccusation = g.currentAccusation := by
  by_cases hne : g.accusingVotes.map (fun e => e.2) = []
  · have hie : (g.accusingVotes.map (fun e => e.2)).isEmpty = true :=
      List.isEmpty_iff.mpr hne
    have hadv : g.advancePhase = { g with phase := GamePhase.NIGHT } := by
      simp only [Game.advancePhase, hacc, hie, if_true]
    rw [hadv]
    exact ⟨rfl, rfl⟩
  · have hie : (g.accusingVotes.map (fun e => e.2)).isEmpty = false := by
      rw [Bool.eq_false_iff]
      intro h
      exact hne (List.isEmpty_iff.mp h)
    have hl := pluralityWinner_none_elim g g.accusingVotes hnone hne
    have hadv : g.advancePhase =
        Game.checkVictoryConditions { g with phase := GamePhase.NIGHT } := by
      simp only [Game.advancePhase, hacc, hie, Bool.false_eq_true, if_false]
      rw [if_neg (fun hc => hl (beq_iff_eq.mp hc))]
    have hch := checkVictory_unchanged_iff { g with phase := GamePhase.NIGHT }
      (by intro h; cases h) (by intro h; cases h)
    obtain ⟨-, -, -, -, -, hca⟩ :=
      checkVictory_fields { g with phase := GamePhase.NIGHT }
    rw [hadv]
    exact ⟨hch.mpr ⟨hw, hv⟩, hca⟩

/-- The accusing-phase transition when the plurality selection succeeds:
the winner becomes the pending accusation and, with both teams still
standing, the phase moves to ballot. -/
lemma accusing_winner (g : Game) (t : Nat)
    (hacc : g.phase = GamePhase.DAY_ACCUSING)
    (hsome : g.pluralityWinner g.accusingVotes = some t)
    (hw : ∃ p ∈ g.players, p.role = Role.WEREWOLF ∧ p.status = Status.ALIVE)
    (hv : ∃ p ∈ g.players, p.role ≠ Role.WEREWOLF ∧
      (p.status = Status.ALIVE ∨ p.status = Status.PROTECTED)) :
    g.advancePhase.phase = GamePhase.DAY_BALLOT ∧
    g.advancePhase.currentAccusation = some t := by
  obtain ⟨hne, hl, hhead⟩ := pluralityWinner_some_elim g g.accusingVotes t hsome
  have hie : (g.accusingVotes.map (fun e => e.2)).isEmpty = false := by
    rw [Bool.eq_false_iff]
    intro h
    exact hne (List.isEmpty_iff.mp h)
  have hadv : g.advancePhase =
      Game.checkVictoryConditions
        { g with phase := GamePhase.DAY_BALLOT
                 currentAccusation :=
                   (g.maxVoted (g.accusingVotes.map (fun e => e.2))).head? } := by
    simp only [Game.advancePhase, hacc, hie, Bool.false_eq_true, if_false]
    rw [if_pos (beq_iff_eq.mpr hl)]
  have hch := checkVictory_unchanged_iff
    { g with phase := GamePhase.DAY_BALLOT
             currentAccusation :=
               (g.maxVoted (g.accusingVotes.map (fun e => e.2))).head? }
    (by intro h; cases h) (by intro h; cases h)
  obtain ⟨-, -, -, -, -, hca⟩ := checkVictory_fields
    { g with phase := GamePhase.DAY_BALLOT
             currentAccusation :=
               (g.maxVoted (g.accusingVotes.map (fun e => e.2))).head? }
  rw [hadv]
  exact ⟨hch.mpr ⟨hw, hv⟩, hca.trans hhead⟩

/-- Roster effect of `__setup_new_day` when the tracked reference does not
resolve: nothing changes. -/
lemma setupNewDay_players_dangling (g : Game) (j : Nat)
    (h : g.protectedPlayer = some j) (hq : g.players[j]? = none) :
    g.setupNewDay.players = g.players := by
  simp [Game.setupNewDay, h, Game.setStatus, hq]

/-- The night transition with no selected victim kills nobody: every
player that was not DEAD is still not DEAD afterwards. -/
lemma night_no_victim (g : Game)
    (hng : g.phase = GamePhase.NIGHT)
    (hnone : g.nightVictim g.wolvesVotes = none) :
    ∀ (i : Nat) (p : Player), g.players[i]? = some p → p.status ≠ Status.DEAD →
      ∃ p', g.advancePhase.players[i]? = some p' ∧ p'.status ≠ Status.DEAD := by
  have hadv : g.advancePhase =
      Game.checkVictoryConditions
        { g.setupNewDay with phase := GamePhase.DAY_DISCUSSION } := by
    simp only [Game.advancePhase, hng, hnone]
  intro i p hp hstat
  obtain ⟨-, -, -, -, f5⟩ := finalize_fields g
  rw [hadv, f5]
  rcases hpp : g.protectedPlayer with _ | j
  · rw [setupNewDay_players_none g hpp]
    exact ⟨p, hp, hstat⟩
  · rcases hq : g.players[j]? with _ | q
    · rw [setupNewDay_players_dangling g j hpp hq]
      exact ⟨p, hp, hstat⟩
    · rw [setupNewDay_players_some g j q hpp hq]
      by_cases hij : i = j
      · subst hij
        obtain ⟨hlen, -⟩ := List.getElem?_eq_some.mp hp
        refine ⟨{ q with status := Status.ALIVE }, ?_, by simp⟩
        rw [List.getElem?_set, if_pos rfl, if_pos hlen]
      · refine ⟨p, ?_, hstat⟩
        rw [List.getElem?_set_ne (fun h => hij h.symm)]
        exact hp

/-- **C5.** The plurality rule shared by the accusing-to-ballot transition
and the night kill resolution: a candidate is selected iff it is the single
strict maximum of the per-target tally; an empty vote map or any tie at the
maximum yields no winner, in which case the accusing transition sets no
accusation and skips to night, and the night transition kills nobody. The
roster-distinctness hypothesis reflects that vote targets are references to
distinct player objects; the both-teams-standing hypotheses keep the
after-transition victory check from overriding the phase. -/
theorem plurality_single_strict_max (g : Game) (hnd : g.players.Nodup) :
    (∀ votes : List (Nat × Nat), g.nightVictim votes = g.pluralityWinner votes) ∧
    (∀ votes : List (Nat × Nat), (∀ e ∈ votes, e.2 < g.players.length) →
      ∀ t : Nat,
        (g.pluralityWinner votes = some t ↔
          (t ∈ votes.map (fun e => e.2) ∧
           ∀ u ∈ votes.map (fun e => e.2), u ≠ t →
             (votes.map (fun e => e.2)).count u <
               (votes.map (fun e => e.2)).count t))) ∧
    g.pluralityWinner [] = none ∧
    (g.phase = GamePhase.DAY_ACCUSING →
      g.pluralityWinner g.accusingVotes = none →
      (∃ p ∈ g.players, p.role = Role.WEREWOLF ∧ p.status = Status.ALIVE) →
      (∃ p ∈ g.players, p.role ≠ Role.WEREWOLF ∧
        (p.status = Status.ALIVE ∨ p.status = Status.PROTECTED)) →
      g.advancePhase.phase = GamePhase.NIGHT ∧
      g.advancePhase.currentAccusation = g.currentAccusation) ∧
    (∀ t : Nat, g.phase = GamePhase.DAY_ACCUSING →
      g.pluralityWinner g.accusingVotes = some t →
      (∃ p ∈ g.players, p.role = Role.WEREWOLF ∧ p.status = Status.ALIVE) →
      (∃ p ∈ g.players, p.role ≠ Role.WEREWOLF ∧
        (p.status = Status.ALIVE ∨ p.status = Status.PROTECTED)) →
      g.advancePhase.phase = GamePhase.DAY_BALLOT ∧
      g.advancePhase.currentAccusation = some t) ∧
    (g.phase = GamePhase.NIGHT → g.nightVictim g.wolvesVotes = none →
      ∀ (i : Nat) (p : Player), g.players[i]? = some p →
        p.status ≠ Status.DEAD →
        ∃ p', g.advancePhase.players[i]? = some p' ∧
          p'.status ≠ Status.DEAD) :=
  ⟨nightVictim_eq_pluralityWinner g,
   fun votes hval t => pluralityWinner_some_iff g hnd votes hval t,
   rfl,
   fun hacc hnone hw hv => accusing_no_winner g hacc hnone hw hv,
   fun t hacc hsome hw hv => accusing_winner g t hacc hsome hw hv,
   fun hng hnone => night_no_victim g hng hnone⟩

/-- The plurality rule at concrete states: a single vote selects its
target and sends the game to ballot with that accusation; a 1-1 tie selects
nobody and skips to night with no accusation; the night selection agrees
with the shared rule on the tied map and kills nobody. -/
theorem plurality_single_strict_max_witness :
    accuseDupGame.pluralityWinner accuseDupGame.accusingVotes = some 2 ∧
    accuseDupGame.advancePhase.phase = GamePhase.DAY_BALLOT ∧
    accuseDupGame.advancePhase.currentAccusation = some 2 ∧
    accuseTieGame.pluralityWinner accuseTieGame.accusingVotes = none ∧
    accuseTieGame.advancePhase.phase = GamePhase.NIGHT ∧
    accuseTieGame.advancePhase.currentAccusation = none ∧
    wolfDupGame.nightVictim [(1, 0), (2, 3)] =
      wolfDupGame.pluralityWinner [(1, 0), (2, 3)] := by
  have h1 := plurality_single_strict_max accuseDupGame (by decide)
  have h2 := plurality_single_strict_max accuseTieGame (by decide)
  have h3 := plurality_single_strict_max wolfDupGame (by decide)
  have hwin : accuseDupGame.pluralityWinner accuseDupGame.accusingVotes = some 2 :=
    (h1.2.1 accuseDupGame.accusingVotes (by decide) 2).mpr (by decide)
  have hnone : accuseTieGame.pluralityWinner accuseTieGame.accusingVotes = none := by
    decide
  obtain ⟨hb1, hb2⟩ := h1.2.2.2.2.1 2 (by decide) hwin (by decide) (by decide)
  obtain ⟨hn1, hn2⟩ := h2.2.2.2.1 (by decide) hnone (by decide) (by decide)
  refine ⟨hwin, hb1, hb2, hnone, hn1, ?_, h3.1 [(1, 0), (2, 3)]⟩
  rw [hn2]
  rfl
